import Mathlib

/-!
The latest-image cache of version-checker (`pkg/controller/cache.go`).

A shallow embedding of `Controller.getLatestImage` and of the loop body of
`Controller.garbageCollect`, together with the properties of the cache that
the specification states.

Modelling conventions.

* `time.Time` is a point on the integer time line (nanoseconds), `time.Duration`
  is a signed integer number of nanoseconds, `t.Add(d)` is `t + d` and
  `t.Before(u)` is `t < u`.
* A Go pointer `*api.ImageTag` is `Option ImageTag` (`none` is `nil`); a Go
  `error` is `Option Err` (`none` is `nil`).  A Go result pair `(x, err)` is a
  Lean pair.
* The map `c.imageCache` is an association list with unique keys.
* `version.CalculateHashIndex` lives outside this file of the repository and is
  a parameter.  The registry lookup `c.versionGetter.LatestTagFromImage` and the
  wall clock `time.Now()` are effects: what they answer during one call is
  supplied by a `CallEnv`, and every call records the effects it performed, in
  program order, as a list of `Event`s.
* Logging is omitted.
* The lock `c.cacheMu` is a count of readers, a writer flag and a flag for a writer that
  waits inside `Lock`: a waiting writer keeps new readers and other writers out, as
  `sync.RWMutex` documents.
* For the claim about two concurrent callers the same statements are also laid out as a
  step machine (`Pc`, `Thread`, `Config`, `step`, `run`): one position per statement, and a
  schedule that names the thread to step next.  A step is taken only when the lock lets the
  thread through.  A reader that had to wait takes the shared lock by a step of its own once
  the writer has released; every order in which `sync.RWMutex` hands the lock to the
  callers is the order of some schedule.  A call running alone in the machine does what
  `getLatestImage` does (`run_alone_eq_getLatestImage`).
-/

namespace VersionChecker

/-- Go `time.Time`, a point on the integer time line. -/
abbrev Time := Int

/-- Go `time.Duration`, a signed number of nanoseconds. -/
abbrev Duration := Int

/-- One second, as a `time.Duration`. -/
def Second : Duration := 1000000000

/-- Go `*api.ImageTag`: `none` is the nil pointer. -/
abbrev ImageTagPtr (ImageTag : Type) := Option ImageTag

/-- Go `error`: `none` is the nil error. -/
abbrev GoError (Err : Type) := Option Err

/-- Source `imageCacheItem`: a single node item of the cache. -/
structure imageCacheItem (ImageTag : Type) where
  timestamp : Time
  latestImage : ImageTagPtr ImageTag
deriving DecidableEq, Repr

/-- The Go map `map[string]imageCacheItem` held in `c.imageCache`. -/
abbrev ImageCache (Key ImageTag : Type) := AList (fun _ : Key => imageCacheItem ImageTag)

/-- The fields of the source `Controller` that the cache code reads or writes. -/
structure Controller (Key ImageTag : Type) where
  imageCache : ImageCache Key ImageTag
  cacheTimeout : Duration

/-- Effects a call performs on its surroundings, recorded in program order. -/
inductive Event where
  | RLock
  | RUnlock
  | Lock
  | Unlock
  | Now
  | LatestTagFromImage
deriving DecidableEq, Repr

/-- What the surroundings answer during one call of `getLatestImage`. -/
structure CallEnv (Opts ImageTag Err : Type) where
  /-- The reading of `time.Now()` in the staleness test (line 37). -/
  now : Time
  /-- The behaviour of `c.versionGetter.LatestTagFromImage` (line 41). -/
  LatestTagFromImage : Opts → String → ImageTagPtr ImageTag × GoError Err
  /-- The reading of `time.Now()` when committing (line 48). -/
  commitNow : Time

/-- Result of a call: the returned Go pair, the controller afterwards, the effects. -/
structure CallResult (Key ImageTag Err : Type) where
  ret : ImageTagPtr ImageTag × GoError Err
  ctrl : Controller Key ImageTag
  trace : List Event

section Definitions

variable {Key ImageTag Err Opts : Type} [DecidableEq Key]

/-- The test `cacheItem.timestamp.Add(c.cacheTimeout).Before(now)` of lines 37 and 71. -/
def tooOld (cacheTimeout : Duration) (cacheItem : imageCacheItem ImageTag) (now : Time) : Bool :=
  decide (cacheItem.timestamp + cacheTimeout < now)

/-- Source `Controller.getLatestImage` (lines 22-56). -/
def getLatestImage (CalculateHashIndex : String → Opts → Key × GoError Err)
    (c : Controller Key ImageTag) (env : CallEnv Opts ImageTag Err)
    (imageURL : String) (opts : Opts) : CallResult Key ImageTag Err :=
  match CalculateHashIndex imageURL opts with
  | (_, some err) => ⟨(none, some err), c, []⟩
  | (hashIndex, none) =>
    -- c.cacheMu.RLock(); cacheItem, ok := c.imageCache[hashIndex]; c.cacheMu.RUnlock()
    let found := c.imageCache.lookup hashIndex
    let t₁ : List Event := [Event.RLock, Event.RUnlock]
    -- !ok || cacheItem.timestamp.Add(c.cacheTimeout).Before(time.Now())
    let test : Bool × List Event :=
      match found with
      | none => (true, t₁)
      | some cacheItem => (tooOld c.cacheTimeout cacheItem env.now, t₁ ++ [Event.Now])
    if test.1 then
      -- c.cacheMu.Lock(); defer c.cacheMu.Unlock()
      match env.LatestTagFromImage opts imageURL with
      | (_, some err) =>
        ⟨(none, some err), c,
          test.2 ++ [Event.Lock, Event.LatestTagFromImage, Event.Unlock]⟩
      | (latestImage, none) =>
        ⟨(latestImage, none),
          { c with imageCache := c.imageCache.insert hashIndex ⟨env.commitNow, latestImage⟩ },
          test.2 ++ [Event.Lock, Event.LatestTagFromImage, Event.Now, Event.Unlock]⟩
    else
      -- return cacheItem.latestImage, nil (cacheItem is the zero value when !ok)
      match found with
      | some cacheItem => ⟨(cacheItem.latestImage, none), c, test.2⟩
      | none => ⟨(none, none), c, test.2⟩

/-- One iteration of the loop of `Controller.garbageCollect` (lines 66-79), with
`now` the reading of `time.Now()` at line 67.  The range loop visits the
entries of the map and deletes the visited entry when it is too old. -/
def garbageCollectSweep (c : Controller Key ImageTag) (now : Time) :
    Controller Key ImageTag × List Event :=
  ({ c with
      imageCache :=
        c.imageCache.entries.foldl
          (fun m e => if tooOld c.cacheTimeout e.2 now then m.erase e.1 else m)
          c.imageCache },
    [Event.Lock, Event.Now, Event.Unlock])

/-- Source `Controller.garbageCollect` (lines 58-83), run for as many iterations of
its endless loop as there are ticks; `ticks` lists the readings of `time.Now()`
of the successive iterations. -/
def garbageCollect (c : Controller Key ImageTag) (ticks : List Time) :
    Controller Key ImageTag :=
  ticks.foldl (fun c now => (garbageCollectSweep c now).1) c

/-- Number of times a trace invokes the registry lookup. -/
def fetchCount (trace : List Event) : Nat :=
  trace.count Event.LatestTagFromImage

/-- Keys of the entries of a list that are too old at `now`. -/
def staleKeys (cacheTimeout : Duration) (now : Time)
    (l : List (Sigma (fun _ : Key => imageCacheItem ImageTag))) : List Key :=
  (l.filter (fun e => tooOld cacheTimeout e.2 now)).map Sigma.fst

/-- One operation on the controller: a sweep of the garbage collector whose clock reading
is `now`, or a call of `getLatestImage`. -/
inductive Op (Opts ImageTag Err : Type) where
  | sweep (now : Time)
  | get (env : CallEnv Opts ImageTag Err) (imageURL : String) (opts : Opts)

/-- The controller after one operation. -/
def runOp (H : String → Opts → Key × GoError Err) (c : Controller Key ImageTag) :
    Op Opts ImageTag Err → Controller Key ImageTag
  | Op.sweep now => (garbageCollectSweep c now).1
  | Op.get env imageURL opts => (getLatestImage H c env imageURL opts).ctrl

/-- The controller after a sequence of operations, run one after the other. -/
def runOps (H : String → Opts → Key × GoError Err) (c : Controller Key ImageTag)
    (ops : List (Op Opts ImageTag Err)) : Controller Key ImageTag :=
  ops.foldl (runOp H) c

/-- Whether an operation is a call of `getLatestImage` whose derived key is `k`. -/
def isCallFor (H : String → Opts → Key × GoError Err) (k : Key) : Op Opts ImageTag Err → Bool
  | Op.sweep _ => false
  | Op.get _ imageURL opts =>
    match H imageURL opts with
    | (hashIndex, none) => decide (hashIndex = k)
    | (_, some _) => false

/-- The run of the scenario of the specification: three calls of `getLatestImage` for the
same image, at 0, at 0.5s and at 1.5s, followed by one sweep at 1.6s.  The registry behaves
as `f₁`, `f₂`, `f₃` during the three calls; the commits of the first and third call read the
clock at 0 and at 1.5s. -/
structure ScenarioRun (Key ImageTag Err : Type) where
  first : CallResult Key ImageTag Err
  second : CallResult Key ImageTag Err
  third : CallResult Key ImageTag Err
  swept : Controller Key ImageTag

/-- The scenario of the specification, run on the controller `c`. -/
def scenario (H : String → Opts → Key × GoError Err) (c : Controller Key ImageTag)
    (f₁ f₂ f₃ : Opts → String → ImageTagPtr ImageTag × GoError Err)
    (imageURL : String) (opts : Opts) : ScenarioRun Key ImageTag Err :=
  let first := getLatestImage H c ⟨0, f₁, 0⟩ imageURL opts
  let second := getLatestImage H first.ctrl ⟨500000000, f₂, 500000000⟩ imageURL opts
  let third := getLatestImage H second.ctrl ⟨1500000000, f₃, 1500000000⟩ imageURL opts
  ⟨first, second, third, (garbageCollectSweep third.ctrl 1600000000).1⟩

/-- The state of `c.cacheMu`, a `sync.RWMutex`: how many holders of the shared lock there
are, whether the exclusive lock is held, and whether a writer is inside its call of `Lock`,
waiting for the holders of the shared lock to leave. -/
structure RWMutex where
  readers : Nat
  writer : Bool
  writerWaiting : Bool
deriving DecidableEq, Repr

/-- The lock with no holder and no waiting writer. -/
def RWMutex.free : RWMutex := ⟨0, false, false⟩

/-- `RLock` goes through when no writer holds the lock and no writer is waiting in `Lock`:
a blocked `Lock` call keeps new readers out (`none`: the caller would block). -/
def RWMutex.RLock (m : RWMutex) : Option RWMutex :=
  if m.writer = false ∧ m.writerWaiting = false then
    some { m with readers := m.readers + 1 }
  else none

/-- `RUnlock` of a lock with no reader is a run-time fault in Go (`none`). -/
def RWMutex.RUnlock (m : RWMutex) : Option RWMutex :=
  if m.readers = 0 then none else some { m with readers := m.readers - 1 }

/-- First half of a call of `Lock`: the caller becomes the waiting writer, which it can when
no other writer holds the lock or waits for it (`none`: the caller would block). -/
def RWMutex.LockEnter (m : RWMutex) : Option RWMutex :=
  if m.writer = false ∧ m.writerWaiting = false then
    some { m with writerWaiting := true }
  else none

/-- Second half of a call of `Lock`: the waiting writer gets the lock once no reader holds
it (`none`: the caller would block). -/
def RWMutex.LockReturn (m : RWMutex) : Option RWMutex :=
  if m.writerWaiting = true ∧ m.readers = 0 then
    some { m with writer := true, writerWaiting := false }
  else none

/-- A whole call of `Lock` by a caller that does not have to wait: both halves at once
(`none`: the caller would block). -/
def RWMutex.Lock (m : RWMutex) : Option RWMutex :=
  match m.LockEnter with
  | none => none
  | some m2 => m2.LockReturn

/-- `Unlock` of a lock that is not held exclusively is a run-time fault in Go (`none`). -/
def RWMutex.Unlock (m : RWMutex) : Option RWMutex :=
  if m.writer then some { m with writer := false } else none

/-- The effect of one recorded event on the lock. -/
def lockStep (m : RWMutex) : Event → Option RWMutex
  | Event.RLock => m.RLock
  | Event.RUnlock => m.RUnlock
  | Event.Lock => m.Lock
  | Event.Unlock => m.Unlock
  | Event.Now => some m
  | Event.LatestTagFromImage => some m

/-- The parts of a trace that come before an occurrence of the event `e`. -/
def prefixesBefore (e : Event) : List Event → List (List Event)
  | [] => []
  | x :: rest =>
    (if x = e then [[]] else []) ++ (prefixesBefore e rest).map (fun p => x :: p)

/-- The lock after the events of a trace, run by a single caller; `none` when the caller
would block for ever on itself or would fault. -/
def lockRun (m : RWMutex) : List Event → Option RWMutex
  | [] => some m
  | e :: rest =>
    match lockStep m e with
    | none => none
    | some m2 => lockRun m2 rest

/-- Where a running call of `getLatestImage` stands: the next thing it will do. -/
inductive Pc (Key ImageTag Err : Type) where
  /-- About to call `CalculateHashIndex` (line 27). -/
  | start
  /-- About to call `c.cacheMu.RLock()` (line 32). -/
  | wantRLock (hashIndex : Key)
  /-- Holds the shared lock, about to read `c.imageCache[hashIndex]` (line 33). -/
  | holdsRLock (hashIndex : Key)
  /-- Has read the map, about to call `c.cacheMu.RUnlock()` (line 34). -/
  | wantRUnlock (hashIndex : Key) (found : Option (imageCacheItem ImageTag))
  /-- About to evaluate the test of line 37. -/
  | test (hashIndex : Key) (found : Option (imageCacheItem ImageTag))
  /-- About to call `c.cacheMu.Lock()` (line 38). -/
  | wantLock (hashIndex : Key)
  /-- Inside `c.cacheMu.Lock()` (line 38), waiting for the readers to leave. -/
  | waitLock (hashIndex : Key)
  /-- Holds the exclusive lock, about to call `LatestTagFromImage` (line 41). -/
  | fetch (hashIndex : Key)
  /-- Holds the exclusive lock, about to write the map (line 48). -/
  | commit (hashIndex : Key) (latestImage : ImageTagPtr ImageTag)
  /-- Returning from inside the block: the deferred `c.cacheMu.Unlock()` runs next. -/
  | unlock (ret : ImageTagPtr ImageTag × GoError Err)
  /-- Has returned `ret`. -/
  | done (ret : ImageTagPtr ImageTag × GoError Err)

/-- Where the garbage collector stands; `ticks` are the clock readings of the iterations
of its endless loop that the run under study covers and that are still to come. -/
inductive GcPc where
  /-- Waiting for the ticker (line 64), then about to call `c.cacheMu.Lock()` (line 66). -/
  | idle (ticks : List Time)
  /-- Inside `c.cacheMu.Lock()` (line 66), waiting for the readers to leave. -/
  | waitLock (now : Time) (ticks : List Time)
  /-- Holds the exclusive lock, about to read the clock and run the range loop (67-78). -/
  | locked (now : Time) (ticks : List Time)
  /-- About to call `c.cacheMu.Unlock()` (line 79). -/
  | swept (ticks : List Time)

/-- A thread of the running program: a call of `getLatestImage` with its surroundings, or
the garbage collector. -/
inductive Thread (Key ImageTag Err Opts : Type) where
  | accessor (env : CallEnv Opts ImageTag Err) (imageURL : String) (opts : Opts)
      (pc : Pc Key ImageTag Err)
  | collector (pc : GcPc)

/-- What the program did to or for the cache, in the order in which it happened; `thread` is
the position of the acting thread in the list of threads. -/
inductive Mutation (Key ImageTag : Type) where
  | fetch (thread : Nat)
  | commit (thread : Nat) (hashIndex : Key) (item : imageCacheItem ImageTag)
  | sweep (thread : Nat) (now : Time)
deriving DecidableEq

/-- The running program: the controller, its lock, the threads and the history so far. -/
structure Config (Key ImageTag Err Opts : Type) where
  ctrl : Controller Key ImageTag
  mu : RWMutex
  threads : List (Thread Key ImageTag Err Opts)
  history : List (Mutation Key ImageTag)

/-- Outcome of one step of a thread: controller, lock, the thread afterwards, what to add to
the history. -/
abbrev StepResult (Key ImageTag Err Opts : Type) :=
  Controller Key ImageTag × RWMutex × Thread Key ImageTag Err Opts × List (Mutation Key ImageTag)

/-- One step of thread number `i`; `none` when the thread is blocked on the lock or has
nothing left to do. -/
def threadStep (H : String → Opts → Key × GoError Err) (i : Nat) (ctrl : Controller Key ImageTag)
    (mu : RWMutex) : Thread Key ImageTag Err Opts → Option (StepResult Key ImageTag Err Opts)
  | Thread.accessor env imageURL opts pc =>
    match pc with
    | Pc.start =>
      match H imageURL opts with
      | (_, some err) => some (ctrl, mu, Thread.accessor env imageURL opts (Pc.done (none, some err)), [])
      | (hashIndex, none) =>
        some (ctrl, mu, Thread.accessor env imageURL opts (Pc.wantRLock hashIndex), [])
    | Pc.wantRLock hashIndex =>
      match mu.RLock with
      | none => none
      | some m => some (ctrl, m, Thread.accessor env imageURL opts (Pc.holdsRLock hashIndex), [])
    | Pc.holdsRLock hashIndex =>
      some (ctrl, mu, Thread.accessor env imageURL opts
        (Pc.wantRUnlock hashIndex (ctrl.imageCache.lookup hashIndex)), [])
    | Pc.wantRUnlock hashIndex found =>
      match mu.RUnlock with
      | none => none
      | some m => some (ctrl, m, Thread.accessor env imageURL opts (Pc.test hashIndex found), [])
    | Pc.test hashIndex found =>
      match found with
      | none => some (ctrl, mu, Thread.accessor env imageURL opts (Pc.wantLock hashIndex), [])
      | some cacheItem =>
        if tooOld ctrl.cacheTimeout cacheItem env.now then
          some (ctrl, mu, Thread.accessor env imageURL opts (Pc.wantLock hashIndex), [])
        else
          some (ctrl, mu,
            Thread.accessor env imageURL opts (Pc.done (cacheItem.latestImage, none)), [])
    | Pc.wantLock hashIndex =>
      match mu.LockEnter with
      | none => none
      | some m => some (ctrl, m, Thread.accessor env imageURL opts (Pc.waitLock hashIndex), [])
    | Pc.waitLock hashIndex =>
      match mu.LockReturn with
      | none => none
      | some m => some (ctrl, m, Thread.accessor env imageURL opts (Pc.fetch hashIndex), [])
    | Pc.fetch hashIndex =>
      match env.LatestTagFromImage opts imageURL with
      | (_, some err) =>
        some (ctrl, mu, Thread.accessor env imageURL opts (Pc.unlock (none, some err)),
          [Mutation.fetch i])
      | (latestImage, none) =>
        some (ctrl, mu, Thread.accessor env imageURL opts (Pc.commit hashIndex latestImage),
          [Mutation.fetch i])
    | Pc.commit hashIndex latestImage =>
      some ({ ctrl with
              imageCache := ctrl.imageCache.insert hashIndex ⟨env.commitNow, latestImage⟩ },
        mu, Thread.accessor env imageURL opts (Pc.unlock (latestImage, none)),
        [Mutation.commit i hashIndex ⟨env.commitNow, latestImage⟩])
    | Pc.unlock ret =>
      match mu.Unlock with
      | none => none
      | some m => some (ctrl, m, Thread.accessor env imageURL opts (Pc.done ret), [])
    | Pc.done _ => none
  | Thread.collector pc =>
    match pc with
    | GcPc.idle [] => none
    | GcPc.idle (now :: ticks) =>
      match mu.LockEnter with
      | none => none
      | some m => some (ctrl, m, Thread.collector (GcPc.waitLock now ticks), [])
    | GcPc.waitLock now ticks =>
      match mu.LockReturn with
      | none => none
      | some m => some (ctrl, m, Thread.collector (GcPc.locked now ticks), [])
    | GcPc.locked now ticks =>
      some ((garbageCollectSweep ctrl now).1, mu, Thread.collector (GcPc.swept ticks),
        [Mutation.sweep i now])
    | GcPc.swept ticks =>
      match mu.Unlock with
      | none => none
      | some m => some (ctrl, m, Thread.collector (GcPc.idle ticks), [])

/-- One step of the program, taken by thread number `i`. -/
def step (H : String → Opts → Key × GoError Err) (cfg : Config Key ImageTag Err Opts) (i : Nat) :
    Option (Config Key ImageTag Err Opts) :=
  match cfg.threads.get? i with
  | none => none
  | some t =>
    match threadStep H i cfg.ctrl cfg.mu t with
    | none => none
    | some (ctrl, mu, t2, h) =>
      some ⟨ctrl, mu, cfg.threads.set i t2, cfg.history ++ h⟩

/-- A run of the program: the threads named by the schedule step one after the other;
`none` when the schedule asks a thread to step that cannot. -/
def run (H : String → Opts → Key × GoError Err) (cfg : Config Key ImageTag Err Opts) :
    List Nat → Option (Config Key ImageTag Err Opts)
  | [] => some cfg
  | i :: sched =>
    match step H cfg i with
    | none => none
    | some cfg2 => run H cfg2 sched

/-- A thread that has nothing left to do: a call that has returned.  The garbage collector
never has: its loop is endless. -/
def Thread.finished : Thread Key ImageTag Err Opts → Bool
  | Thread.accessor _ _ _ (Pc.done _) => true
  | _ => false

/-- Whether every thread has finished. -/
def allDone (cfg : Config Key ImageTag Err Opts) : Bool :=
  cfg.threads.all Thread.finished

/-- What a thread has returned, when it is a call that has returned. -/
def Thread.result : Thread Key ImageTag Err Opts → Option (ImageTagPtr ImageTag × GoError Err)
  | Thread.accessor _ _ _ (Pc.done ret) => some ret
  | _ => none

/-- A piece of work handed to the program: a call of `getLatestImage`, or a garbage
collector that will run as many iterations as there are clock readings. -/
inductive Job (Opts ImageTag Err : Type) where
  | call (env : CallEnv Opts ImageTag Err) (imageURL : String) (opts : Opts)
  | collect (ticks : List Time)

/-- The thread that starts on a piece of work. -/
def spawn : Job Opts ImageTag Err → Thread Key ImageTag Err Opts
  | Job.call env imageURL opts => Thread.accessor env imageURL opts Pc.start
  | Job.collect ticks => Thread.collector (GcPc.idle ticks)

/-- The program at its start: the lock free, one thread per piece of work, no history. -/
def initial (c : Controller Key ImageTag) (jobs : List (Job Opts ImageTag Err)) :
    Config Key ImageTag Err Opts :=
  ⟨c, RWMutex.free, jobs.map spawn, []⟩

/-- The effect of one entry of the history on the controller. -/
def applyMutation (c : Controller Key ImageTag) : Mutation Key ImageTag → Controller Key ImageTag
  | Mutation.fetch _ => c
  | Mutation.commit _ hashIndex item => { c with imageCache := c.imageCache.insert hashIndex item }
  | Mutation.sweep _ now => (garbageCollectSweep c now).1

/-- The controller after a history. -/
def replay (c : Controller Key ImageTag) (history : List (Mutation Key ImageTag)) :
    Controller Key ImageTag :=
  history.foldl applyMutation c

/-- The program with two calls of `getLatestImage` for the same key `k` that have both
read the map of the controller `c` under the shared lock and released it, and of which
neither has asked for the exclusive lock yet: both are about to evaluate the test of line 37
on what they found. -/
def herd (c : Controller Key ImageTag) (k : Key)
    (envA : CallEnv Opts ImageTag Err) (urlA : String) (optsA : Opts)
    (envB : CallEnv Opts ImageTag Err) (urlB : String) (optsB : Opts) :
    Config Key ImageTag Err Opts :=
  ⟨c, RWMutex.free,
    [Thread.accessor envA urlA optsA (Pc.test k (c.imageCache.lookup k)),
     Thread.accessor envB urlB optsB (Pc.test k (c.imageCache.lookup k))],
    []⟩

/-- The pair that `getLatestImage` returns after the registry lookup (lines 42-50): a nil
value with the error when the lookup failed, the value with a nil error otherwise. -/
def fetchReturn (outcome : ImageTagPtr ImageTag × GoError Err) :
    ImageTagPtr ImageTag × GoError Err :=
  match outcome with
  | (_, some err) => (none, some err)
  | (latestImage, none) => (latestImage, none)

/-- What a call that goes to the registry adds to the history in all: its lookup, and
its commit when the lookup succeeded. -/
def callHistory (i : Nat) (k : Key) (commitNow : Time)
    (outcome : ImageTagPtr ImageTag × GoError Err) : List (Mutation Key ImageTag) :=
  match outcome with
  | (_, some _) => [Mutation.fetch i]
  | (latestImage, none) => [Mutation.fetch i, Mutation.commit i k ⟨commitNow, latestImage⟩]

/-- The positions through which a call that found `found` goes from the test of line 37
on, when the test sends it to the registry and the registry answers `outcome`, numbered 0
to 6; a call whose lookup failed never stands at position 4. -/
def herdPc (k : Key) (found : Option (imageCacheItem ImageTag))
    (outcome : ImageTagPtr ImageTag × GoError Err) : Nat → Pc Key ImageTag Err
  | 0 => Pc.test k found
  | 1 => Pc.wantLock k
  | 2 => Pc.waitLock k
  | 3 => Pc.fetch k
  | 4 => Pc.commit k outcome.1
  | 5 => Pc.unlock (fetchReturn outcome)
  | _ => Pc.done (fetchReturn outcome)

/-- The position after position `a`: the next one, except that a failed lookup at position 3
leads to the deferred unlock at position 5. -/
def herdNext (outcome : ImageTagPtr ImageTag × GoError Err) (a : Nat) : Nat :=
  if a = 3 ∧ outcome.2.isSome = true then 5 else a + 1

/-- What thread `i` has added to the history when it stands at position `a`. -/
def herdHistory (i : Nat) (k : Key) (commitNow : Time)
    (outcome : ImageTagPtr ImageTag × GoError Err) : Nat → List (Mutation Key ImageTag)
  | 0 => []
  | 1 => []
  | 2 => []
  | 3 => []
  | 4 => [Mutation.fetch i]
  | _ => callHistory i k commitNow outcome

/-- What thread `i` adds to the history by its step from position `a`. -/
def herdAdd (i : Nat) (k : Key) (commitNow : Time)
    (outcome : ImageTagPtr ImageTag × GoError Err) : Nat → List (Mutation Key ImageTag)
  | 3 => [Mutation.fetch i]
  | 4 => [Mutation.commit i k ⟨commitNow, outcome.1⟩]
  | _ => []

/-- The threads that invoked the registry lookup, in the order in which they did. -/
def fetchers : List (Mutation Key ImageTag) → List Nat
  | [] => []
  | Mutation.fetch i :: rest => i :: fetchers rest
  | _ :: rest => fetchers rest

/-- The configurations that the program `herd` goes through: the two calls stand at
positions `a` and `b`; the writer flag is set exactly when one of them is in the section
that holds the exclusive lock, and the waiting flag exactly when one of them waits inside
`Lock`; the controller is the one at the start after the history; and the history is what
one call has added followed by what the other has added, the second having entered `Lock`
only once the first has returned. -/
def HerdInv (c : Controller Key ImageTag) (k : Key)
    (envA : CallEnv Opts ImageTag Err) (urlA : String) (optsA : Opts)
    (envB : CallEnv Opts ImageTag Err) (urlB : String) (optsB : Opts)
    (cfg : Config Key ImageTag Err Opts) : Prop :=
  ∃ a b : Nat, a ≤ 6 ∧ b ≤ 6
    ∧ ((envA.LatestTagFromImage optsA urlA).2.isSome = true → a ≠ 4)
    ∧ ((envB.LatestTagFromImage optsB urlB).2.isSome = true → b ≠ 4)
    ∧ cfg.threads =
        [Thread.accessor envA urlA optsA
          (herdPc k (c.imageCache.lookup k) (envA.LatestTagFromImage optsA urlA) a),
         Thread.accessor envB urlB optsB
          (herdPc k (c.imageCache.lookup k) (envB.LatestTagFromImage optsB urlB) b)]
    ∧ cfg.mu = ⟨0, decide ((3 ≤ a ∧ a ≤ 5) ∨ (3 ≤ b ∧ b ≤ 5)), decide (a = 2 ∨ b = 2)⟩
    ∧ cfg.ctrl = replay c cfg.history
    ∧ ((cfg.history
          = herdHistory 0 k envA.commitNow (envA.LatestTagFromImage optsA urlA) a
            ++ herdHistory 1 k envB.commitNow (envB.LatestTagFromImage optsB urlB) b
        ∧ (a = 6 ∨ b ≤ 1))
      ∨ (cfg.history
          = herdHistory 1 k envB.commitNow (envB.LatestTagFromImage optsB urlB) b
            ++ herdHistory 0 k envA.commitNow (envA.LatestTagFromImage optsA urlA) a
        ∧ (b = 6 ∨ a ≤ 1)))

end Definitions

section Examples

/-- A key derivation for the examples: the image URL itself, an error on the empty URL. -/
def exHash : String → Unit → String × GoError String :=
  fun imageURL _ => if imageURL = "" then ("", some "empty image URL") else (imageURL, none)

/-- A controller with a timeout of one second and an empty cache. -/
def exEmpty : Controller String String := ⟨∅, Second⟩

/-- A controller with a timeout of one second whose cache holds `nginx`, written at 0. -/
def exCtrl : Controller String String :=
  ⟨(∅ : ImageCache String String).insert "nginx" ⟨0, some "1.0"⟩, Second⟩

/-- Surroundings in which the registry answers the tag `tag`. -/
def exEnvOk (now : Time) (tag : String) (commitNow : Time) : CallEnv Unit String String :=
  ⟨now, fun _ _ => (some tag, none), commitNow⟩

/-- Surroundings in which the registry lookup fails. -/
def exEnvFail (now : Time) : CallEnv Unit String String :=
  ⟨now, fun _ _ => (none, some "registry unreachable"), now⟩

/-- Surroundings of the second call of the retry example: the registry answers `2.0`. -/
def exRetryEnv : CallEnv Unit String String := exEnvOk 2000000000 "2.0" 2000000000

/-- Operations between the two calls of the retry example: a sweep and a call for `redis`. -/
def exBetween : List (Op Unit String String) :=
  [Op.sweep 1600000000, Op.get (exEnvOk 1700000000 "7.2" 1700000000) "redis" ()]

/-- The example controller with one more key, `redis`, written at 0.9s. -/
def exCtrlMore : Controller String String :=
  ⟨exCtrl.imageCache.insert "redis" ⟨900000000, some "7.2"⟩, Second⟩

/-- The program `herd` of the example: two calls for `nginx`, whose entry written at 0 is
too old when they test it at 1.5s; the registry answers `A` to the first, which commits
at 1.5s + 10ns, and `B` to the second, which commits at 1.5s + 20ns. -/
def exHerd : Config String String String Unit :=
  herd exCtrl "nginx" (exEnvOk 1500000000 "A" 1500000010) "nginx" ()
    (exEnvOk 1500000001 "B" 1500000020) "nginx" ()

/-- A schedule of the program `herd`: both calls evaluate their test, then the first call
goes through its exclusive section and returns, then the second. -/
def exFirstThenSecond : List Nat := [0, 1, 0, 0, 0, 0, 0, 1, 1, 1, 1, 1]

/-- A schedule of the program `herd`: both calls evaluate their test, the first one first,
then the second call goes through its exclusive section and returns, then the first. -/
def exSecondThenFirst : List Nat := [0, 1, 1, 1, 1, 1, 1, 0, 0, 0, 0, 0]

/-- The end of the run of `exHerd` in which the first call goes first. -/
def exHerdAB : Config String String String Unit :=
  (run exHash exHerd exFirstThenSecond).getD exHerd

/-- The program `herd` of the example with the first call committing at 1.5s + 30ns, after
the second. -/
def exHerdLate : Config String String String Unit :=
  herd exCtrl "nginx" (exEnvOk 1500000000 "A" 1500000030) "nginx" ()
    (exEnvOk 1500000001 "B" 1500000020) "nginx" ()

/-- The end of the run of `exHerdLate` in which the second call goes first, although the
first call was the first to test what it found. -/
def exHerdBA : Config String String String Unit :=
  (run exHash exHerdLate exSecondThenFirst).getD exHerdLate

/-- The program `herd` of the example with the registry failing for the first call. -/
def exHerdFail : Config String String String Unit :=
  herd exCtrl "nginx" (exEnvFail 1500000000) "nginx" ()
    (exEnvOk 1500000001 "B" 1500000020) "nginx" ()

/-- The end of the run of `exHerdFail` in which the failing call goes first. -/
def exHerdFailEnd : Config String String String Unit :=
  (run exHash exHerdFail [0, 1, 0, 0, 0, 0, 1, 1, 1, 1, 1]).getD exHerdFail

end Examples

section Lemmas

variable {Key ImageTag Err Opts : Type} [DecidableEq Key]

theorem kerase_eq_filter (a : Key) :
    ∀ (l : List (Sigma (fun _ : Key => imageCacheItem ImageTag))), l.NodupKeys →
      List.kerase a l = l.filter (fun e => decide (e.1 ≠ a))
  | [], _ => rfl
  | e :: l, h => by
    have hl : l.NodupKeys := (List.nodupKeys_cons.1 h).2
    have hnot : e.1 ∉ l.keys := (List.nodupKeys_cons.1 h).1
    by_cases hea : a = e.1
    · subst hea
      have hfil : l.filter (fun x => decide (x.1 ≠ e.1)) = l := by
        rw [List.filter_eq_self]
        intro x hx
        have : x.1 ≠ e.1 := fun hxe => hnot (hxe ▸ List.mem_keys_of_mem hx)
        simpa using this
      rw [List.kerase_cons_eq rfl, List.filter_cons]
      simp only [ne_eq, not_true_eq_false, decide_False, Bool.false_eq_true, if_false]
      exact hfil.symm
    · have hea2 : e.1 ≠ a := fun h2 => hea h2.symm
      rw [List.kerase_cons_ne hea, kerase_eq_filter a l hl]
      simp [List.filter_cons, hea2]

theorem sweep_fold_entries (cacheTimeout : Duration) (now : Time) :
    ∀ (l : List (Sigma (fun _ : Key => imageCacheItem ImageTag))) (m : ImageCache Key ImageTag),
      (l.foldl (fun m e => if tooOld cacheTimeout e.2 now then m.erase e.1 else m) m).entries
        = m.entries.filter (fun e => decide (e.1 ∉ staleKeys cacheTimeout now l))
  | [], m => by simp [staleKeys]
  | e :: l, m => by
    rw [List.foldl_cons, sweep_fold_entries cacheTimeout now l]
    by_cases hs : tooOld cacheTimeout e.2 now = true
    · simp only [hs, if_true]
      have he : (AList.erase e.1 m).entries = List.kerase e.1 m.entries := rfl
      rw [he, kerase_eq_filter e.1 m.entries m.nodupKeys, List.filter_filter]
      apply List.filter_congr
      intro x _
      have hk : staleKeys cacheTimeout now (e :: l) = e.1 :: staleKeys cacheTimeout now l := by
        simp [staleKeys, List.filter_cons, hs]
      rw [hk]
      by_cases hx : x.1 = e.1 <;> by_cases hm : x.1 ∈ staleKeys cacheTimeout now l <;>
        simp [hx, hm]
    · simp only [hs]
      apply List.filter_congr
      intro x _
      simp [staleKeys, List.filter_cons, hs]

/-- The entries left by a sweep are the entries that are not too old, in their
original order. -/
theorem sweep_entries (c : Controller Key ImageTag) (now : Time) :
    (garbageCollectSweep c now).1.imageCache.entries
      = c.imageCache.entries.filter (fun e => !tooOld c.cacheTimeout e.2 now) := by
  show (c.imageCache.entries.foldl _ c.imageCache).entries = _
  rw [sweep_fold_entries]
  apply List.filter_congr
  intro x hx
  have key : x.1 ∈ staleKeys c.cacheTimeout now c.imageCache.entries
      ↔ tooOld c.cacheTimeout x.2 now = true := by
    constructor
    · intro h
      simp only [staleKeys, List.mem_map, List.mem_filter] at h
      obtain ⟨y, ⟨hy, hyold⟩, hyx⟩ := h
      have : y = x := by
        obtain ⟨yk, yv⟩ := y
        obtain ⟨xk, xv⟩ := x
        simp only at hyx
        subst hyx
        rw [c.imageCache.nodupKeys.eq_of_mk_mem hy hx]
      rw [← this]; exact hyold
    · intro h
      simp only [staleKeys, List.mem_map, List.mem_filter]
      exact ⟨x, ⟨hx, h⟩, rfl⟩
  by_cases h : tooOld c.cacheTimeout x.2 now = true
  · simp [h, key.2 h]
  · have : x.1 ∉ staleKeys c.cacheTimeout now c.imageCache.entries := fun hm => h (key.1 hm)
    simp [h, this]

/-- The order in which the range loop visits the entries does not matter: visiting them
in any permuted order leaves the same cache. -/
theorem sweep_order_irrelevant (cacheTimeout : Duration) (now : Time)
    (m : ImageCache Key ImageTag) (l : List (Sigma (fun _ : Key => imageCacheItem ImageTag)))
    (hperm : l.Perm m.entries) :
    l.foldl (fun m e => if tooOld cacheTimeout e.2 now then m.erase e.1 else m) m
      = m.entries.foldl (fun m e => if tooOld cacheTimeout e.2 now then m.erase e.1 else m) m := by
  apply AList.ext
  rw [sweep_fold_entries, sweep_fold_entries]
  apply List.filter_congr
  intro x _
  have hiff : x.1 ∈ staleKeys cacheTimeout now l
      ↔ x.1 ∈ staleKeys cacheTimeout now m.entries :=
    ((hperm.filter _).map _).mem_iff
  simp only [hiff]

/-- Lookup after a sweep: the entry before, unless it was too old. -/
theorem sweep_lookup (c : Controller Key ImageTag) (now : Time) (k : Key)
    (item : imageCacheItem ImageTag) :
    (garbageCollectSweep c now).1.imageCache.lookup k = some item
      ↔ c.imageCache.lookup k = some item ∧ tooOld c.cacheTimeout item now = false := by
  have h1 := @AList.mem_lookup_iff _ _ _ k item (garbageCollectSweep c now).1.imageCache
  have h2 := @AList.mem_lookup_iff _ _ _ k item c.imageCache
  simp only [Option.mem_def] at h1 h2
  rw [h1, h2, sweep_entries, List.mem_filter]
  simp

theorem sweep_cacheTimeout (c : Controller Key ImageTag) (now : Time) :
    (garbageCollectSweep c now).1.cacheTimeout = c.cacheTimeout := rfl

/-- Path of `getLatestImage` on which `CalculateHashIndex` fails. -/
theorem getLatestImage_keyError (H : String → Opts → Key × GoError Err)
    (c : Controller Key ImageTag) (env : CallEnv Opts ImageTag Err) (imageURL : String)
    (opts : Opts) (k : Key) (e : Err) (hkey : H imageURL opts = (k, some e)) :
    getLatestImage H c env imageURL opts = ⟨(none, some e), c, []⟩ := by
  simp [getLatestImage, hkey]

/-- Path of `getLatestImage` that serves the entry found in the cache. -/
theorem getLatestImage_hit (H : String → Opts → Key × GoError Err)
    (c : Controller Key ImageTag) (env : CallEnv Opts ImageTag Err) (imageURL : String)
    (opts : Opts) (k : Key) (item : imageCacheItem ImageTag)
    (hkey : H imageURL opts = (k, none)) (hfound : c.imageCache.lookup k = some item)
    (hold : tooOld c.cacheTimeout item env.now = false) :
    getLatestImage H c env imageURL opts
      = ⟨(item.latestImage, none), c, [Event.RLock, Event.RUnlock, Event.Now]⟩ := by
  simp [getLatestImage, hkey, hfound, hold]

/-- Path of `getLatestImage` with the key absent from the cache. -/
theorem getLatestImage_miss (H : String → Opts → Key × GoError Err)
    (c : Controller Key ImageTag) (env : CallEnv Opts ImageTag Err) (imageURL : String)
    (opts : Opts) (k : Key)
    (hkey : H imageURL opts = (k, none)) (hfound : c.imageCache.lookup k = none) :
    getLatestImage H c env imageURL opts
      = match env.LatestTagFromImage opts imageURL with
        | (_, some err) =>
          ⟨(none, some err), c,
            [Event.RLock, Event.RUnlock, Event.Lock, Event.LatestTagFromImage, Event.Unlock]⟩
        | (latestImage, none) =>
          ⟨(latestImage, none),
            { c with imageCache := c.imageCache.insert k ⟨env.commitNow, latestImage⟩ },
            [Event.RLock, Event.RUnlock, Event.Lock, Event.LatestTagFromImage, Event.Now,
              Event.Unlock]⟩ := by
  simp only [getLatestImage, hkey, hfound]
  rcases hf : env.LatestTagFromImage opts imageURL with ⟨v, _ | e⟩ <;> simp

/-- Path of `getLatestImage` with the entry found in the cache too old. -/
theorem getLatestImage_stale (H : String → Opts → Key × GoError Err)
    (c : Controller Key ImageTag) (env : CallEnv Opts ImageTag Err) (imageURL : String)
    (opts : Opts) (k : Key) (item : imageCacheItem ImageTag)
    (hkey : H imageURL opts = (k, none)) (hfound : c.imageCache.lookup k = some item)
    (hold : tooOld c.cacheTimeout item env.now = true) :
    getLatestImage H c env imageURL opts
      = match env.LatestTagFromImage opts imageURL with
        | (_, some err) =>
          ⟨(none, some err), c,
            [Event.RLock, Event.RUnlock, Event.Now, Event.Lock, Event.LatestTagFromImage,
              Event.Unlock]⟩
        | (latestImage, none) =>
          ⟨(latestImage, none),
            { c with imageCache := c.imageCache.insert k ⟨env.commitNow, latestImage⟩ },
            [Event.RLock, Event.RUnlock, Event.Now, Event.Lock, Event.LatestTagFromImage,
              Event.Now, Event.Unlock]⟩ := by
  simp only [getLatestImage, hkey, hfound, hold]
  rcases hf : env.LatestTagFromImage opts imageURL with ⟨v, _ | e⟩ <;> simp

theorem tooOld_eq_true {cacheTimeout : Duration} {item : imageCacheItem ImageTag} {now : Time} :
    tooOld cacheTimeout item now = true ↔ item.timestamp + cacheTimeout < now := by
  simp [tooOld]

theorem tooOld_eq_false {cacheTimeout : Duration} {item : imageCacheItem ImageTag} {now : Time} :
    tooOld cacheTimeout item now = false ↔ now ≤ item.timestamp + cacheTimeout := by
  simp [tooOld]

/-- The registry lookup is invoked exactly when key derivation succeeds and the key is
absent or its entry is too old. -/
theorem fetch_mem_trace_iff (H : String → Opts → Key × GoError Err)
    (c : Controller Key ImageTag) (env : CallEnv Opts ImageTag Err) (imageURL : String)
    (opts : Opts) :
    Event.LatestTagFromImage ∈ (getLatestImage H c env imageURL opts).trace
      ↔ (H imageURL opts).2 = none
          ∧ (c.imageCache.lookup (H imageURL opts).1 = none
            ∨ ∃ item, c.imageCache.lookup (H imageURL opts).1 = some item
                ∧ item.timestamp + c.cacheTimeout < env.now) := by
  rcases hk : H imageURL opts with ⟨k, _ | ke⟩
  · rcases hl : c.imageCache.lookup k with _ | item
    · rw [getLatestImage_miss H c env imageURL opts k hk hl]
      rcases hf : env.LatestTagFromImage opts imageURL with ⟨v, _ | e⟩ <;> simp
    · rcases ho : tooOld c.cacheTimeout item env.now
      · rw [getLatestImage_hit H c env imageURL opts k item hk hl ho]
        have := tooOld_eq_false.1 ho
        simp only [List.mem_cons, List.mem_singleton, reduceCtorEq, or_self,
          List.not_mem_nil, false_iff, not_and, not_or, not_exists]
        intro _
        refine ⟨by simp, ?_⟩
        intro x hx
        simp only [Option.some.injEq] at hx
        subst hx
        exact not_lt.2 this
      · rw [getLatestImage_stale H c env imageURL opts k item hk hl ho]
        have := tooOld_eq_true.1 ho
        rcases hf : env.LatestTagFromImage opts imageURL with ⟨v, _ | e⟩ <;> simp [this]
  · rw [getLatestImage_keyError H c env imageURL opts k ke hk]
    simp

/-- The trace of a call invokes the registry lookup once if it invokes it at all. -/
theorem fetchCount_eq (H : String → Opts → Key × GoError Err)
    (c : Controller Key ImageTag) (env : CallEnv Opts ImageTag Err) (imageURL : String)
    (opts : Opts) :
    fetchCount (getLatestImage H c env imageURL opts).trace
      = if Event.LatestTagFromImage ∈ (getLatestImage H c env imageURL opts).trace
        then 1 else 0 := by
  rcases hk : H imageURL opts with ⟨k, _ | ke⟩
  · rcases hl : c.imageCache.lookup k with _ | item
    · rw [getLatestImage_miss H c env imageURL opts k hk hl]
      rcases hf : env.LatestTagFromImage opts imageURL with ⟨v, _ | e⟩ <;> simp [fetchCount]
    · rcases ho : tooOld c.cacheTimeout item env.now
      · rw [getLatestImage_hit H c env imageURL opts k item hk hl ho]
        simp [fetchCount]
      · rw [getLatestImage_stale H c env imageURL opts k item hk hl ho]
        rcases hf : env.LatestTagFromImage opts imageURL with ⟨v, _ | e⟩ <;> simp [fetchCount]
  · rw [getLatestImage_keyError H c env imageURL opts k ke hk]
    simp [fetchCount]

/-- What a call returns when it invokes the registry lookup: the outcome of the lookup. -/
theorem ret_of_fetch (H : String → Opts → Key × GoError Err)
    (c : Controller Key ImageTag) (env : CallEnv Opts ImageTag Err) (imageURL : String)
    (opts : Opts)
    (hinvoked : Event.LatestTagFromImage ∈ (getLatestImage H c env imageURL opts).trace) :
    (getLatestImage H c env imageURL opts).ret
      = match env.LatestTagFromImage opts imageURL with
        | (_, some err) => (none, some err)
        | (latestImage, none) => (latestImage, none) := by
  rcases hk : H imageURL opts with ⟨k, _ | ke⟩
  · rcases hl : c.imageCache.lookup k with _ | item
    · rw [getLatestImage_miss H c env imageURL opts k hk hl]
      rcases hf : env.LatestTagFromImage opts imageURL with ⟨v, _ | e⟩ <;> simp
    · rcases ho : tooOld c.cacheTimeout item env.now
      · rw [getLatestImage_hit H c env imageURL opts k item hk hl ho] at hinvoked
        simp at hinvoked
      · rw [getLatestImage_stale H c env imageURL opts k item hk hl ho]
        rcases hf : env.LatestTagFromImage opts imageURL with ⟨v, _ | e⟩ <;> simp
  · rw [getLatestImage_keyError H c env imageURL opts k ke hk] at hinvoked
    simp at hinvoked

/-- The controller after a call: unchanged, or the derived key mapped to a new entry. -/
theorem getLatestImage_ctrl (H : String → Opts → Key × GoError Err)
    (c : Controller Key ImageTag) (env : CallEnv Opts ImageTag Err) (imageURL : String)
    (opts : Opts) :
    (getLatestImage H c env imageURL opts).ctrl = c
      ∨ ∃ k v, H imageURL opts = (k, none)
          ∧ env.LatestTagFromImage opts imageURL = (v, none)
          ∧ Event.LatestTagFromImage ∈ (getLatestImage H c env imageURL opts).trace
          ∧ (getLatestImage H c env imageURL opts).ctrl
              = { c with imageCache := c.imageCache.insert k ⟨env.commitNow, v⟩ } := by
  rcases hk : H imageURL opts with ⟨k, _ | ke⟩
  · rcases hl : c.imageCache.lookup k with _ | item
    · rw [getLatestImage_miss H c env imageURL opts k hk hl]
      rcases hf : env.LatestTagFromImage opts imageURL with ⟨v, _ | e⟩ <;> simp
    · rcases ho : tooOld c.cacheTimeout item env.now
      · rw [getLatestImage_hit H c env imageURL opts k item hk hl ho]
        simp
      · rw [getLatestImage_stale H c env imageURL opts k item hk hl ho]
        rcases hf : env.LatestTagFromImage opts imageURL with ⟨v, _ | e⟩ <;> simp
  · rw [getLatestImage_keyError H c env imageURL opts k ke hk]
    simp

theorem getLatestImage_cacheTimeout (H : String → Opts → Key × GoError Err)
    (c : Controller Key ImageTag) (env : CallEnv Opts ImageTag Err) (imageURL : String)
    (opts : Opts) :
    (getLatestImage H c env imageURL opts).ctrl.cacheTimeout = c.cacheTimeout := by
  rcases getLatestImage_ctrl H c env imageURL opts with h | ⟨k, v, _, _, _, h⟩ <;> rw [h]

/-- A sweep leaves under a key nothing, or the entry that was there. -/
theorem sweep_lookup_cases (c : Controller Key ImageTag) (now : Time) (k : Key) :
    (garbageCollectSweep c now).1.imageCache.lookup k = none
      ∨ (garbageCollectSweep c now).1.imageCache.lookup k = c.imageCache.lookup k := by
  rcases hl : (garbageCollectSweep c now).1.imageCache.lookup k with _ | item
  · exact Or.inl rfl
  · exact Or.inr ((sweep_lookup c now k item).1 hl).1.symm

/-- A call whose key derivation does not yield `k` leaves the entry of `k` as it was. -/
theorem getLatestImage_lookup_other (H : String → Opts → Key × GoError Err)
    (c : Controller Key ImageTag) (env : CallEnv Opts ImageTag Err) (imageURL : String)
    (opts : Opts) (k : Key) (hk : isCallFor H k (Op.get env imageURL opts) = false) :
    (getLatestImage H c env imageURL opts).ctrl.imageCache.lookup k = c.imageCache.lookup k := by
  rcases getLatestImage_ctrl H c env imageURL opts with h | ⟨k2, v, hk2, _, _, h⟩
  · rw [h]
  · rw [h]
    have hne : k ≠ k2 := by
      intro heq
      simp [isCallFor, hk2, heq] at hk
    exact AList.lookup_insert_ne hne

/-- Sweeps and calls for other keys keep a missing or too old entry missing or too old. -/
theorem runOps_keeps_stale (H : String → Opts → Key × GoError Err) (k : Key) (t : Time) :
    ∀ (ops : List (Op Opts ImageTag Err)) (c : Controller Key ImageTag),
      (∀ op ∈ ops, isCallFor H k op = false) →
      (c.imageCache.lookup k = none
        ∨ ∃ item, c.imageCache.lookup k = some item ∧ item.timestamp + c.cacheTimeout < t) →
      (runOps H c ops).cacheTimeout = c.cacheTimeout
        ∧ ((runOps H c ops).imageCache.lookup k = none
          ∨ ∃ item, (runOps H c ops).imageCache.lookup k = some item
              ∧ item.timestamp + (runOps H c ops).cacheTimeout < t)
  | [], c, _, hc => ⟨rfl, hc⟩
  | op :: ops, c, hops, hc => by
    have hstep : (runOp H c op).cacheTimeout = c.cacheTimeout
        ∧ ((runOp H c op).imageCache.lookup k = none
          ∨ (runOp H c op).imageCache.lookup k = c.imageCache.lookup k) := by
      cases op with
      | sweep now => exact ⟨rfl, sweep_lookup_cases c now k⟩
      | get env imageURL opts =>
        exact ⟨getLatestImage_cacheTimeout H c env imageURL opts,
          Or.inr (getLatestImage_lookup_other H c env imageURL opts k
            (hops _ (List.mem_cons_self _ _)))⟩
    have hc2 : (runOp H c op).imageCache.lookup k = none
        ∨ ∃ item, (runOp H c op).imageCache.lookup k = some item
            ∧ item.timestamp + (runOp H c op).cacheTimeout < t := by
      rcases hstep.2 with h | h
      · exact Or.inl h
      · rw [h, hstep.1]; exact hc
    have ih := runOps_keeps_stale H k t ops (runOp H c op)
      (fun o ho => hops o (List.mem_cons_of_mem _ ho)) hc2
    have hrun : runOps H c (op :: ops) = runOps H (runOp H c op) ops := rfl
    rw [hrun]
    exact ⟨ih.1.trans hstep.1, ih.2⟩

/-- The trace of a call is one of six lists, one per path through the function. -/
theorem getLatestImage_trace_cases (H : String → Opts → Key × GoError Err)
    (c : Controller Key ImageTag) (env : CallEnv Opts ImageTag Err) (imageURL : String)
    (opts : Opts) :
    (getLatestImage H c env imageURL opts).trace ∈
      [[],
       [Event.RLock, Event.RUnlock, Event.Now],
       [Event.RLock, Event.RUnlock, Event.Lock, Event.LatestTagFromImage, Event.Unlock],
       [Event.RLock, Event.RUnlock, Event.Lock, Event.LatestTagFromImage, Event.Now,
         Event.Unlock],
       [Event.RLock, Event.RUnlock, Event.Now, Event.Lock, Event.LatestTagFromImage,
         Event.Unlock],
       [Event.RLock, Event.RUnlock, Event.Now, Event.Lock, Event.LatestTagFromImage,
         Event.Now, Event.Unlock]] := by
  rcases hk : H imageURL opts with ⟨k, _ | ke⟩
  · rcases hl : c.imageCache.lookup k with _ | item
    · rw [getLatestImage_miss H c env imageURL opts k hk hl]
      rcases hf : env.LatestTagFromImage opts imageURL with ⟨v, _ | e⟩ <;> simp
    · rcases ho : tooOld c.cacheTimeout item env.now
      · rw [getLatestImage_hit H c env imageURL opts k item hk hl ho]
        simp
      · rw [getLatestImage_stale H c env imageURL opts k item hk hl ho]
        rcases hf : env.LatestTagFromImage opts imageURL with ⟨v, _ | e⟩ <;> simp
  · rw [getLatestImage_keyError H c env imageURL opts k ke hk]
    simp

theorem mem_prefixesBefore (e : Event) :
    ∀ (pre post l : List Event), l = pre ++ e :: post → pre ∈ prefixesBefore e l
  | [], post, l, h => by
    subst h
    simp [prefixesBefore]
  | x :: pre, post, l, h => by
    subst h
    simp only [List.cons_append, prefixesBefore, List.mem_append, List.mem_map]
    exact Or.inr ⟨pre, mem_prefixesBefore e pre post _ rfl, rfl⟩

theorem forall_prefixesBefore (e : Event) (l : List Event) (P : List Event → Prop)
    (h : ∀ p ∈ prefixesBefore e l, P p) :
    ∀ pre post, l = pre ++ e :: post → P pre :=
  fun pre post hl => h pre (mem_prefixesBefore e pre post l hl)

theorem lockRun_append (m : RWMutex) (pre post : List Event) :
    lockRun m (pre ++ post)
      = match lockRun m pre with
        | none => none
        | some m2 => lockRun m2 post := by
  induction pre generalizing m with
  | nil => rfl
  | cons e pre ih =>
    simp only [List.cons_append, lockRun]
    cases lockStep m e with
    | none => rfl
    | some m2 => exact ih m2

/-- A step of the program, taken apart: the thread that stepped and what its step did. -/
theorem step_eq_some (H : String → Opts → Key × GoError Err)
    (cfg cfg2 : Config Key ImageTag Err Opts) (i : Nat) (hstep : step H cfg i = some cfg2) :
    ∃ t t2 h, cfg.threads.get? i = some t
      ∧ threadStep H i cfg.ctrl cfg.mu t = some (cfg2.ctrl, cfg2.mu, t2, h)
      ∧ cfg2.threads = cfg.threads.set i t2
      ∧ cfg2.history = cfg.history ++ h := by
  unfold step at hstep
  cases ht : cfg.threads.get? i with
  | none => rw [ht] at hstep; simp at hstep
  | some t =>
    rw [ht] at hstep
    simp only at hstep
    cases hts : threadStep H i cfg.ctrl cfg.mu t with
    | none => rw [hts] at hstep; simp at hstep
    | some r =>
      obtain ⟨ctrl, mu, t2, h⟩ := r
      rw [hts] at hstep
      simp only [Option.some.injEq] at hstep
      subst hstep
      exact ⟨t, t2, h, rfl, hts, rfl, rfl⟩

theorem replay_cacheTimeout (c : Controller Key ImageTag) :
    ∀ h : List (Mutation Key ImageTag), (replay c h).cacheTimeout = c.cacheTimeout := by
  intro h
  induction h using List.reverseRecOn with
  | nil => rfl
  | append_singleton h m ih =>
    simp only [replay, List.foldl_append, List.foldl_cons, List.foldl_nil] at ih ⊢
    cases m <;> simp only [applyMutation] <;> exact ih

theorem replay_append (c : Controller Key ImageTag) (h₁ h₂ : List (Mutation Key ImageTag)) :
    replay c (h₁ ++ h₂) = replay (replay c h₁) h₂ := by
  simp [replay, List.foldl_append]

/-- One step of a call of the program `herd` from position `a`: it moves to the next
position, adds `herdAdd` to the history, enters `Lock` at position 1 (which asks for no
writer holding or waiting), gets the lock at position 2 and gives it back at position 5. -/
theorem herd_threadStep (H : String → Opts → Key × GoError Err) (i : Nat)
    (ctrl ctrl2 : Controller Key ImageTag) (w p : Bool) (mu2 : RWMutex)
    (env : CallEnv Opts ImageTag Err) (imageURL : String) (opts : Opts) (k : Key)
    (found : Option (imageCacheItem ImageTag)) (a : Nat)
    (t2 : Thread Key ImageTag Err Opts) (h : List (Mutation Key ImageTag))
    (ha : a ≤ 6)
    (hpos : (env.LatestTagFromImage opts imageURL).2.isSome = true → a ≠ 4)
    (hstale : found = none
      ∨ ∃ item, found = some item ∧ tooOld ctrl.cacheTimeout item env.now = true)
    (hstep : threadStep H i ctrl ⟨0, w, p⟩
        (Thread.accessor env imageURL opts
          (herdPc k found (env.LatestTagFromImage opts imageURL) a))
      = some (ctrl2, mu2, t2, h)) :
    a ≤ 5
      ∧ t2 = Thread.accessor env imageURL opts
          (herdPc k found (env.LatestTagFromImage opts imageURL)
            (herdNext (env.LatestTagFromImage opts imageURL) a))
      ∧ h = herdAdd i k env.commitNow (env.LatestTagFromImage opts imageURL) a
      ∧ ctrl2 = replay ctrl h
      ∧ mu2 = ⟨0, if a = 2 then true else if a = 5 then false else w,
          if a = 1 then true else if a = 2 then false else p⟩
      ∧ (a = 1 → w = false ∧ p = false)
      ∧ (a = 2 → p = true)
      ∧ (a = 5 → w = true) := by
  rcases hf : env.LatestTagFromImage opts imageURL with ⟨v, e⟩
  rw [hf] at hpos hstep
  simp only at hpos hstep
  interval_cases a
  · simp only [herdPc, threadStep] at hstep
    rcases hstale with hnone | ⟨item, hsome, hold⟩
    · subst hnone
      simp only [Option.some.injEq, Prod.mk.injEq] at hstep
      obtain ⟨rfl, rfl, rfl, rfl⟩ := hstep
      simp [herdPc, herdAdd, herdNext, replay]
    · subst hsome
      simp only [hold, if_true, Option.some.injEq, Prod.mk.injEq] at hstep
      obtain ⟨rfl, rfl, rfl, rfl⟩ := hstep
      simp [herdPc, herdAdd, herdNext, replay]
  · simp only [herdPc, threadStep, RWMutex.LockEnter] at hstep
    cases w <;> cases p <;> simp at hstep
    obtain ⟨rfl, rfl, rfl, rfl⟩ := hstep
    simp [herdPc, herdAdd, herdNext, replay]
  · simp only [herdPc, threadStep, RWMutex.LockReturn] at hstep
    cases p <;> simp at hstep
    obtain ⟨rfl, rfl, rfl, rfl⟩ := hstep
    simp [herdPc, herdAdd, herdNext, replay]
  · simp only [herdPc, threadStep, hf] at hstep
    rcases e with _ | e
    · simp only [Option.some.injEq, Prod.mk.injEq] at hstep
      obtain ⟨rfl, rfl, rfl, rfl⟩ := hstep
      simp [herdPc, herdAdd, herdNext, replay, applyMutation]
    · simp only [Option.some.injEq, Prod.mk.injEq] at hstep
      obtain ⟨rfl, rfl, rfl, rfl⟩ := hstep
      simp [herdPc, herdAdd, herdNext, replay, applyMutation, fetchReturn]
  · rcases e with _ | e
    · simp only [herdPc, threadStep, Option.some.injEq, Prod.mk.injEq] at hstep
      obtain ⟨rfl, rfl, rfl, rfl⟩ := hstep
      simp [herdPc, herdAdd, herdNext, replay, applyMutation, fetchReturn]
    · simp at hpos
  · simp only [herdPc, threadStep, RWMutex.Unlock] at hstep
    cases w
    · simp at hstep
    · simp only [if_true, Option.some.injEq, Prod.mk.injEq] at hstep
      obtain ⟨rfl, rfl, rfl, rfl⟩ := hstep
      simp [herdPc, herdAdd, herdNext, replay]
  · simp [herdPc, threadStep] at hstep

theorem herdNext_cases (outcome : ImageTagPtr ImageTag × GoError Err) (a : Nat) :
    (herdNext outcome a = a + 1 ∧ (a = 3 → outcome.2.isSome = false))
      ∨ (a = 3 ∧ outcome.2.isSome = true ∧ herdNext outcome a = 5) := by
  unfold herdNext
  by_cases h : a = 3 ∧ outcome.2.isSome = true
  · right
    exact ⟨h.1, h.2, by rw [if_pos h]⟩
  · left
    refine ⟨by rw [if_neg h], ?_⟩
    intro h3
    cases hs : outcome.2.isSome
    · rfl
    · exact absurd ⟨h3, hs⟩ h

theorem herdHistory_next (i : Nat) (k : Key) (commitNow : Time)
    (outcome : ImageTagPtr ImageTag × GoError Err) (a : Nat) (ha : a ≤ 5)
    (hpos : outcome.2.isSome = true → a ≠ 4) :
    herdHistory i k commitNow outcome (herdNext outcome a)
      = herdHistory i k commitNow outcome a ++ herdAdd i k commitNow outcome a := by
  obtain ⟨v, e⟩ := outcome
  rcases e with _ | e
  · interval_cases a <;> simp [herdNext, herdHistory, herdAdd, callHistory]
  · interval_cases a <;> simp_all [herdNext, herdHistory, herdAdd, callHistory]

theorem herdHistory_early (i : Nat) (k : Key) (commitNow : Time)
    (outcome : ImageTagPtr ImageTag × GoError Err) (a : Nat) (ha : a ≤ 3) :
    herdHistory i k commitNow outcome a = [] := by
  interval_cases a <;> rfl

/-- The flags of the lock after a step of one of the two calls of the program `herd`. -/
theorem herd_mu_step (a a2 b : Nat) (ha : a ≤ 5) (hb : b ≤ 6)
    (hnext : a2 = a + 1 ∨ (a = 3 ∧ a2 = 5))
    (hexcl : (a = 6 ∨ b ≤ 1) ∨ (b = 6 ∨ a ≤ 1))
    (hw1 : a = 1 →
      decide ((3 ≤ a ∧ a ≤ 5) ∨ (3 ≤ b ∧ b ≤ 5)) = false ∧ decide (a = 2 ∨ b = 2) = false) :
    (if a = 2 then true else if a = 5 then false
        else decide ((3 ≤ a ∧ a ≤ 5) ∨ (3 ≤ b ∧ b ≤ 5)))
        = decide ((3 ≤ a2 ∧ a2 ≤ 5) ∨ (3 ≤ b ∧ b ≤ 5))
      ∧ (if a = 1 then true else if a = 2 then false else decide (a = 2 ∨ b = 2))
        = decide (a2 = 2 ∨ b = 2) := by
  rcases hnext with h | ⟨h3, h5⟩
  · subst h
    interval_cases a <;> interval_cases b <;> simp_all
  · subst h3 h5
    interval_cases b <;> simp_all

/-- The history after a step of one of the two calls of the program `herd`: still what one
call has added followed by what the other has added. -/
theorem herd_order_step (i j : Nat) (k : Key) (nowX nowY : Time)
    (oX oY : ImageTagPtr ImageTag × GoError Err)
    (hist : List (Mutation Key ImageTag)) (a b : Nat) (ha : a ≤ 5) (hb : b ≤ 6)
    (hposX : oX.2.isSome = true → a ≠ 4)
    (hfree : a = 1 → b ≤ 1 ∨ b = 6)
    (hord : (hist = herdHistory i k nowX oX a ++ herdHistory j k nowY oY b ∧ (a = 6 ∨ b ≤ 1))
      ∨ (hist = herdHistory j k nowY oY b ++ herdHistory i k nowX oX a ∧ (b = 6 ∨ a ≤ 1))) :
    (hist ++ herdAdd i k nowX oX a
          = herdHistory i k nowX oX (herdNext oX a) ++ herdHistory j k nowY oY b
        ∧ (herdNext oX a = 6 ∨ b ≤ 1))
      ∨ (hist ++ herdAdd i k nowX oX a
          = herdHistory j k nowY oY b ++ herdHistory i k nowX oX (herdNext oX a)
        ∧ (b = 6 ∨ herdNext oX a ≤ 1)) := by
  have hnext := herdHistory_next i k nowX oX a ha hposX
  rcases hord with ⟨hh, hc⟩ | ⟨hh, hc⟩
  · have hb1 : b ≤ 1 := by omega
    left
    rw [hh, herdHistory_early j k nowY oY b (by omega), hnext]
    exact ⟨by simp, Or.inr hb1⟩
  · by_cases hb6 : b = 6
    · right
      rw [hh, hnext, List.append_assoc]
      exact ⟨rfl, Or.inl hb6⟩
    · have ha1 : a ≤ 1 := by omega
      have hn : herdNext oX a = a + 1 := by
        rcases herdNext_cases oX a with h | ⟨h3, _, _⟩
        · exact h.1
        · omega
      by_cases ha0 : a = 0
      · right
        rw [hh, hnext, List.append_assoc]
        exact ⟨rfl, Or.inr (by omega)⟩
      · have ha1e : a = 1 := by omega
        have hb1 : b ≤ 1 := by
          rcases hfree ha1e with h | h
          · exact h
          · exact absurd h hb6
        left
        rw [hh, herdHistory_early j k nowY oY b (by omega), hn,
          herdHistory_early i k nowX oX a (by omega),
          herdHistory_early i k nowX oX (a + 1) (by omega)]
        have hadd : herdAdd i k nowX oX a = [] := by subst ha1e; rfl
        rw [hadd]
        exact ⟨rfl, Or.inr hb1⟩

/-- Every step of the program `herd` leads from a configuration described by `HerdInv`
to one described by `HerdInv`. -/
theorem herd_step (H : String → Opts → Key × GoError Err) (c : Controller Key ImageTag) (k : Key)
    (envA : CallEnv Opts ImageTag Err) (urlA : String) (optsA : Opts)
    (envB : CallEnv Opts ImageTag Err) (urlB : String) (optsB : Opts)
    (hstaleA : c.imageCache.lookup k = none
      ∨ ∃ item, c.imageCache.lookup k = some item
          ∧ tooOld c.cacheTimeout item envA.now = true)
    (hstaleB : c.imageCache.lookup k = none
      ∨ ∃ item, c.imageCache.lookup k = some item
          ∧ tooOld c.cacheTimeout item envB.now = true)
    (cfg cfg2 : Config Key ImageTag Err Opts) (i : Nat)
    (hinv : HerdInv c k envA urlA optsA envB urlB optsB cfg)
    (hstep : step H cfg i = some cfg2) :
    HerdInv c k envA urlA optsA envB urlB optsB cfg2 := by
  obtain ⟨a, b, ha, hb, hpa, hpb, hth, hmu, hctrl, hord⟩ := hinv
  obtain ⟨t, t2, h, ht, hts, hthreads, hhist⟩ := step_eq_some H cfg cfg2 i hstep
  have hto : cfg.ctrl.cacheTimeout = c.cacheTimeout := by
    rw [hctrl]; exact replay_cacheTimeout c _
  have hexcl : (a = 6 ∨ b ≤ 1) ∨ (b = 6 ∨ a ≤ 1) := by
    rcases hord with ⟨_, h1⟩ | ⟨_, h1⟩
    · exact Or.inl h1
    · exact Or.inr h1
  rw [hth] at ht
  rw [hmu] at hts
  rcases i with _ | _ | i
  · simp only [List.get?_cons_zero, Option.some.injEq] at ht
    subst ht
    obtain ⟨ha5, ht2, hh, hc2, hmu2, hw1, _, _⟩ :=
      herd_threadStep H 0 cfg.ctrl cfg2.ctrl _ _ cfg2.mu envA urlA optsA k _ a t2 h ha hpa
        (by rw [hto]; exact hstaleA) hts
    have hnext := herdNext_cases (envA.LatestTagFromImage optsA urlA) a
    have hn : herdNext (envA.LatestTagFromImage optsA urlA) a = a + 1
        ∨ (a = 3 ∧ herdNext (envA.LatestTagFromImage optsA urlA) a = 5) := by
      rcases hnext with h1 | ⟨h3, _, h5⟩
      · exact Or.inl h1.1
      · exact Or.inr ⟨h3, h5⟩
    have hfree : a = 1 → b ≤ 1 ∨ b = 6 := by
      intro h1
      have hw := hw1 h1
      simp only [decide_eq_false_iff_not, not_or, not_and, not_le] at hw
      omega
    obtain ⟨hmw, hmp⟩ := herd_mu_step a _ b ha5 hb hn hexcl hw1
    refine ⟨herdNext (envA.LatestTagFromImage optsA urlA) a, b, ?_, hb, ?_, hpb, ?_, ?_, ?_, ?_⟩
    · rcases hn with h1 | ⟨_, h5⟩ <;> omega
    · intro hsome
      rcases hnext with h1 | ⟨_, _, h5⟩
      · have := h1.2
        rw [h1.1]
        intro h4
        have h3 : a = 3 := by omega
        rw [this h3] at hsome
        exact absurd hsome (by simp)
      · omega
    · rw [hthreads, hth, ht2]; rfl
    · rw [hmu2, hmw, hmp]
    · rw [hc2, hctrl, hhist, replay_append]
    · rw [hhist, hh]
      exact herd_order_step 0 1 k _ _ _ _ cfg.history a b ha5 hb hpa hfree hord
  · simp only [List.get?_cons_succ, List.get?_cons_zero, Option.some.injEq] at ht
    subst ht
    have hmuB : (⟨0, decide ((3 ≤ a ∧ a ≤ 5) ∨ (3 ≤ b ∧ b ≤ 5)), decide (a = 2 ∨ b = 2)⟩ :
          RWMutex)
        = ⟨0, decide ((3 ≤ b ∧ b ≤ 5) ∨ (3 ≤ a ∧ a ≤ 5)), decide (b = 2 ∨ a = 2)⟩ := by
      simp only [or_comm]
    rw [hmuB] at hts
    obtain ⟨hb5, ht2, hh, hc2, hmu2, hw1, _, _⟩ :=
      herd_threadStep H 1 cfg.ctrl cfg2.ctrl _ _ cfg2.mu envB urlB optsB k _ b t2 h hb hpb
        (by rw [hto]; exact hstaleB) hts
    have hnext := herdNext_cases (envB.LatestTagFromImage optsB urlB) b
    have hn : herdNext (envB.LatestTagFromImage optsB urlB) b = b + 1
        ∨ (b = 3 ∧ herdNext (envB.LatestTagFromImage optsB urlB) b = 5) := by
      rcases hnext with h1 | ⟨h3, _, h5⟩
      · exact Or.inl h1.1
      · exact Or.inr ⟨h3, h5⟩
    have hfree : b = 1 → a ≤ 1 ∨ a = 6 := by
      intro h1
      have hw := hw1 h1
      simp only [decide_eq_false_iff_not, not_or, not_and, not_le] at hw
      omega
    obtain ⟨hmw, hmp⟩ := herd_mu_step b _ a hb5 ha hn (Or.symm hexcl) hw1
    refine ⟨a, herdNext (envB.LatestTagFromImage optsB urlB) b, ha, ?_, hpa, ?_, ?_, ?_, ?_, ?_⟩
    · rcases hn with h1 | ⟨_, h5⟩ <;> omega
    · intro hsome
      rcases hnext with h1 | ⟨_, _, h5⟩
      · have := h1.2
        rw [h1.1]
        intro h4
        have h3 : b = 3 := by omega
        rw [this h3] at hsome
        exact absurd hsome (by simp)
      · omega
    · rw [hthreads, hth, ht2]; rfl
    · rw [hmu2, hmw, hmp]
      simp only [or_comm]
    · rw [hc2, hctrl, hhist, replay_append]
    · rw [hhist, hh]
      exact Or.symm
        (herd_order_step 1 0 k _ _ _ _ cfg.history b a hb5 ha hpb hfree (Or.symm hord))
  · simp at ht

/-- Every run of the program `herd` ends in a configuration described by `HerdInv`. -/
theorem herd_run (H : String → Opts → Key × GoError Err) (c : Controller Key ImageTag) (k : Key)
    (envA : CallEnv Opts ImageTag Err) (urlA : String) (optsA : Opts)
    (envB : CallEnv Opts ImageTag Err) (urlB : String) (optsB : Opts)
    (hstaleA : c.imageCache.lookup k = none
      ∨ ∃ item, c.imageCache.lookup k = some item
          ∧ tooOld c.cacheTimeout item envA.now = true)
    (hstaleB : c.imageCache.lookup k = none
      ∨ ∃ item, c.imageCache.lookup k = some item
          ∧ tooOld c.cacheTimeout item envB.now = true) :
    ∀ (sched : List Nat) (cfg cfg2 : Config Key ImageTag Err Opts),
      HerdInv c k envA urlA optsA envB urlB optsB cfg → run H cfg sched = some cfg2 →
      HerdInv c k envA urlA optsA envB urlB optsB cfg2
  | [], cfg, cfg2, hinv, hrun => by
    simp only [run, Option.some.injEq] at hrun
    subst hrun
    exact hinv
  | i :: sched, cfg, cfg2, hinv, hrun => by
    simp only [run] at hrun
    cases hs : step H cfg i with
    | none => rw [hs] at hrun; simp at hrun
    | some cfg1 =>
      rw [hs] at hrun
      exact herd_run H c k envA urlA optsA envB urlB optsB hstaleA hstaleB sched cfg1 cfg2
        (herd_step H c k envA urlA optsA envB urlB optsB hstaleA hstaleB cfg cfg1 i
          hinv hs) hrun

theorem herdPc_finished (env : CallEnv Opts ImageTag Err) (imageURL : String) (opts : Opts)
    (k : Key) (found : Option (imageCacheItem ImageTag))
    (outcome : ImageTagPtr ImageTag × GoError Err) (a : Nat) (ha : a ≤ 6)
    (hfin : (Thread.accessor env imageURL opts (herdPc k found outcome a)
      : Thread Key ImageTag Err Opts).finished = true) :
    a = 6 := by
  interval_cases a <;> first | rfl | (simp [herdPc, Thread.finished] at hfin)

theorem herd_inv_start (c : Controller Key ImageTag) (k : Key)
    (envA : CallEnv Opts ImageTag Err) (urlA : String) (optsA : Opts)
    (envB : CallEnv Opts ImageTag Err) (urlB : String) (optsB : Opts) :
    HerdInv c k envA urlA optsA envB urlB optsB
      (herd c k envA urlA optsA envB urlB optsB) :=
  ⟨0, 0, by omega, by omega, fun _ => by omega, fun _ => by omega, rfl, rfl, rfl,
    Or.inl ⟨rfl, Or.inr (by omega)⟩⟩

/-- The stepwise program agrees with `getLatestImage`: one call running alone from the start
reaches, in at most ten steps, the position `done` with the pair that `getLatestImage`
returns, the controller that it leaves, and the lock free. -/
theorem run_alone_eq_getLatestImage (H : String → Opts → Key × GoError Err)
    (c : Controller Key ImageTag) (env : CallEnv Opts ImageTag Err) (imageURL : String)
    (opts : Opts) :
    ∃ n hist, n ≤ 10
      ∧ run H (initial c [Job.call env imageURL opts]) (List.replicate n 0)
        = some ⟨(getLatestImage H c env imageURL opts).ctrl, RWMutex.free,
            [Thread.accessor env imageURL opts
              (Pc.done (getLatestImage H c env imageURL opts).ret)], hist⟩ := by
  rcases hk : H imageURL opts with ⟨k, _ | ke⟩
  · rcases hl : c.imageCache.lookup k with _ | item
    · rw [getLatestImage_miss H c env imageURL opts k hk hl]
      rcases hf : env.LatestTagFromImage opts imageURL with ⟨v, _ | e⟩
      · exact ⟨10, [Mutation.fetch 0, Mutation.commit 0 k ⟨env.commitNow, v⟩], by omega, by
          simp [run, step, initial, spawn, threadStep, hk, hl, hf, RWMutex.RLock,
            RWMutex.RUnlock, RWMutex.LockEnter, RWMutex.LockReturn, RWMutex.Unlock, RWMutex.free, List.replicate]⟩
      · exact ⟨9, [Mutation.fetch 0], by omega, by
          simp [run, step, initial, spawn, threadStep, hk, hl, hf, RWMutex.RLock,
            RWMutex.RUnlock, RWMutex.LockEnter, RWMutex.LockReturn, RWMutex.Unlock, RWMutex.free, List.replicate]⟩
    · rcases ho : tooOld c.cacheTimeout item env.now
      · rw [getLatestImage_hit H c env imageURL opts k item hk hl ho]
        exact ⟨5, [], by omega, by
          simp [run, step, initial, spawn, threadStep, hk, hl, ho, RWMutex.RLock,
            RWMutex.RUnlock, RWMutex.free, List.replicate]⟩
      · rw [getLatestImage_stale H c env imageURL opts k item hk hl ho]
        rcases hf : env.LatestTagFromImage opts imageURL with ⟨v, _ | e⟩
        · exact ⟨10, [Mutation.fetch 0, Mutation.commit 0 k ⟨env.commitNow, v⟩], by omega, by
            simp [run, step, initial, spawn, threadStep, hk, hl, ho, hf, RWMutex.RLock,
              RWMutex.RUnlock, RWMutex.LockEnter, RWMutex.LockReturn, RWMutex.Unlock, RWMutex.free, List.replicate]⟩
        · exact ⟨9, [Mutation.fetch 0], by omega, by
            simp [run, step, initial, spawn, threadStep, hk, hl, ho, hf, RWMutex.RLock,
              RWMutex.RUnlock, RWMutex.LockEnter, RWMutex.LockReturn, RWMutex.Unlock, RWMutex.free, List.replicate]⟩
  · rw [getLatestImage_keyError H c env imageURL opts k ke hk]
    exact ⟨1, [], by omega, by
      simp [run, step, initial, spawn, threadStep, hk, List.replicate]⟩

/-- The stepwise program agrees with `garbageCollectSweep`: a garbage collector running
alone for one iteration leaves the controller of one sweep and the lock free. -/
theorem run_alone_eq_sweep (H : String → Opts → Key × GoError Err)
    (c : Controller Key ImageTag) (now : Time) :
    run H (initial c [(Job.collect [now] : Job Opts ImageTag Err)]) [0, 0, 0, 0]
      = some ⟨(garbageCollectSweep c now).1, RWMutex.free,
          [Thread.collector (GcPc.idle [])], [Mutation.sweep 0 now]⟩ := by
  simp [run, step, initial, spawn, threadStep, RWMutex.LockEnter, RWMutex.LockReturn,
    RWMutex.Unlock, RWMutex.free]

end Lemmas

section Claims

variable {Key ImageTag Err Opts : Type} [DecidableEq Key]

/-- C1 (fresh hit): when key derivation yields `k`, the cache holds an entry for `k` and
`now < entry.timestamp + TTL`, `getLatestImage` returns the value of that entry with a
nil error, does not invoke the registry lookup, and leaves the controller as it was. -/
theorem C1_fresh_hit (H : String → Opts → Key × GoError Err)
    (c : Controller Key ImageTag) (env : CallEnv Opts ImageTag Err) (imageURL : String)
    (opts : Opts) (k : Key) (item : imageCacheItem ImageTag)
    (hkey : H imageURL opts = (k, none))
    (hfound : c.imageCache.lookup k = some item)
    (hfresh : env.now < item.timestamp + c.cacheTimeout) :
    (getLatestImage H c env imageURL opts).ret = (item.latestImage, none)
      ∧ Event.LatestTagFromImage ∉ (getLatestImage H c env imageURL opts).trace
      ∧ fetchCount (getLatestImage H c env imageURL opts).trace = 0
      ∧ (getLatestImage H c env imageURL opts).ctrl = c := by
  have hold : tooOld c.cacheTimeout item env.now = false :=
    tooOld_eq_false.2 (le_of_lt hfresh)
  rw [getLatestImage_hit H c env imageURL opts k item hkey hfound hold]
  simp [fetchCount]

/-- C1 at a concrete input: `nginx` written at 0 is served at half a second. -/
theorem C1_fresh_hit_witness :
    exHash "nginx" () = ("nginx", none)
      ∧ exCtrl.imageCache.lookup "nginx" = some ⟨0, some "1.0"⟩
      ∧ (exEnvOk 500000000 "2.0" 500000001).now < (0 : Time) + exCtrl.cacheTimeout
      ∧ (getLatestImage exHash exCtrl (exEnvOk 500000000 "2.0" 500000001) "nginx" ()).ret
          = (some "1.0", none)
      ∧ fetchCount
          (getLatestImage exHash exCtrl (exEnvOk 500000000 "2.0" 500000001) "nginx" ()).trace = 0
      ∧ (getLatestImage exHash exCtrl (exEnvOk 500000000 "2.0" 500000001) "nginx" ()).ctrl
          = exCtrl :=
  have h := C1_fresh_hit exHash exCtrl (exEnvOk 500000000 "2.0" 500000001) "nginx" ()
    "nginx" ⟨0, some "1.0"⟩ (by decide) (by decide) (by decide)
  ⟨by decide, by decide, by decide, h.1, h.2.2.1, h.2.2.2⟩

/-- C2 (miss or expired entry, successful fetch): when the cache has no entry for `k`, or
has one with `now > entry.timestamp + TTL`, and the registry lookup answers `v` with a nil
error, `getLatestImage` returns `v` with a nil error and the cache afterwards is the cache
before with `k` mapped to the new entry whose value is `v` and whose timestamp is the clock
reading taken when committing. -/
theorem C2_miss_or_expired_commits (H : String → Opts → Key × GoError Err)
    (c : Controller Key ImageTag) (env : CallEnv Opts ImageTag Err) (imageURL : String)
    (opts : Opts) (k : Key) (v : ImageTagPtr ImageTag)
    (hkey : H imageURL opts = (k, none))
    (hstale : c.imageCache.lookup k = none
      ∨ ∃ item, c.imageCache.lookup k = some item ∧ env.now > item.timestamp + c.cacheTimeout)
    (hfetch : env.LatestTagFromImage opts imageURL = (v, none)) :
    (getLatestImage H c env imageURL opts).ret = (v, none)
      ∧ (getLatestImage H c env imageURL opts).ctrl.imageCache
          = c.imageCache.insert k ⟨env.commitNow, v⟩
      ∧ (getLatestImage H c env imageURL opts).ctrl.imageCache.lookup k
          = some ⟨env.commitNow, v⟩
      ∧ (getLatestImage H c env imageURL opts).ctrl.cacheTimeout = c.cacheTimeout
      ∧ fetchCount (getLatestImage H c env imageURL opts).trace = 1 := by
  rcases hstale with hnone | ⟨item, hfound, hgt⟩
  · rw [getLatestImage_miss H c env imageURL opts k hkey hnone, hfetch]
    simp [fetchCount]
  · rw [getLatestImage_stale H c env imageURL opts k item hkey hfound (tooOld_eq_true.2 hgt),
      hfetch]
    simp [fetchCount]

/-- C2 at a concrete input: `nginx` written at 0 is fetched anew at one and a half seconds. -/
theorem C2_miss_or_expired_commits_witness :
    exHash "nginx" () = ("nginx", none)
      ∧ (exCtrl.imageCache.lookup "nginx" = none
        ∨ ∃ item, exCtrl.imageCache.lookup "nginx" = some item
            ∧ (exEnvOk 1500000000 "2.0" 1500000007).now > item.timestamp + exCtrl.cacheTimeout)
      ∧ (getLatestImage exHash exCtrl (exEnvOk 1500000000 "2.0" 1500000007) "nginx" ()).ret
          = (some "2.0", none)
      ∧ (getLatestImage exHash exCtrl
            (exEnvOk 1500000000 "2.0" 1500000007) "nginx" ()).ctrl.imageCache.lookup "nginx"
          = some ⟨1500000007, some "2.0"⟩ :=
  have hs : exCtrl.imageCache.lookup "nginx" = none
      ∨ ∃ item, exCtrl.imageCache.lookup "nginx" = some item
          ∧ (exEnvOk 1500000000 "2.0" 1500000007).now > item.timestamp + exCtrl.cacheTimeout :=
    Or.inr ⟨⟨0, some "1.0"⟩, by decide, by decide⟩
  have h := C2_miss_or_expired_commits exHash exCtrl (exEnvOk 1500000000 "2.0" 1500000007)
    "nginx" () "nginx" (some "2.0") (by decide) hs rfl
  ⟨by decide, hs, h.1, h.2.2.1⟩

/-- C3 (no poisoning on fetch failure): whenever `getLatestImage` invokes the registry lookup
and the lookup returns a non-nil error `e`, the call returns a nil value with `e`, and the
controller afterwards is exactly the controller before the call. -/
theorem C3_fetch_failure_leaves_store (H : String → Opts → Key × GoError Err)
    (c : Controller Key ImageTag) (env : CallEnv Opts ImageTag Err) (imageURL : String)
    (opts : Opts) (e : Err)
    (hinvoked : Event.LatestTagFromImage ∈ (getLatestImage H c env imageURL opts).trace)
    (hfail : (env.LatestTagFromImage opts imageURL).2 = some e) :
    (getLatestImage H c env imageURL opts).ret = (none, some e)
      ∧ (getLatestImage H c env imageURL opts).ctrl = c
      ∧ fetchCount (getLatestImage H c env imageURL opts).trace = 1 := by
  rcases hf : env.LatestTagFromImage opts imageURL with ⟨v, e2⟩
  rw [hf] at hfail
  simp only at hfail
  subst hfail
  rcases hk : H imageURL opts with ⟨k, _ | ke⟩
  · rcases hl : c.imageCache.lookup k with _ | item
    · rw [getLatestImage_miss H c env imageURL opts k hk hl, hf]
      simp [fetchCount]
    · rcases ho : tooOld c.cacheTimeout item env.now
      · rw [getLatestImage_hit H c env imageURL opts k item hk hl ho] at hinvoked
        simp at hinvoked
      · rw [getLatestImage_stale H c env imageURL opts k item hk hl ho, hf]
        simp [fetchCount]
  · rw [getLatestImage_keyError H c env imageURL opts k ke hk] at hinvoked
    simp at hinvoked

/-- C3 at a concrete input: the stale `nginx` entry survives a failed lookup untouched. -/
theorem C3_fetch_failure_leaves_store_witness :
    Event.LatestTagFromImage
        ∈ (getLatestImage exHash exCtrl (exEnvFail 1500000000) "nginx" ()).trace
      ∧ ((exEnvFail 1500000000).LatestTagFromImage () "nginx").2 = some "registry unreachable"
      ∧ (getLatestImage exHash exCtrl (exEnvFail 1500000000) "nginx" ()).ret
          = (none, some "registry unreachable")
      ∧ (getLatestImage exHash exCtrl (exEnvFail 1500000000) "nginx" ()).ctrl = exCtrl :=
  have h := C3_fetch_failure_leaves_store exHash exCtrl (exEnvFail 1500000000) "nginx" ()
    "registry unreachable" (by decide) rfl
  ⟨by decide, rfl, h.1, h.2.1⟩

/-- C4 (one sweep): after one sweep at `now`, a key is in the cache if and only if it was
in the cache before with an entry for which `entry.timestamp + TTL < now` is false; every
key that is left maps to the entry it had before; the sweep adds no key and does not change
the timeout. -/
theorem C4_sweep_removes_exactly_too_old (c : Controller Key ImageTag) (now : Time) (k : Key) :
    (k ∈ (garbageCollectSweep c now).1.imageCache
        ↔ ∃ item, c.imageCache.lookup k = some item
            ∧ ¬ (item.timestamp + c.cacheTimeout < now))
      ∧ (∀ item, (garbageCollectSweep c now).1.imageCache.lookup k = some item
            → c.imageCache.lookup k = some item)
      ∧ (k ∉ c.imageCache → k ∉ (garbageCollectSweep c now).1.imageCache)
      ∧ (garbageCollectSweep c now).1.cacheTimeout = c.cacheTimeout := by
  have hmem : k ∈ (garbageCollectSweep c now).1.imageCache
      ↔ ∃ item, c.imageCache.lookup k = some item
          ∧ ¬ (item.timestamp + c.cacheTimeout < now) := by
    rw [← AList.lookup_isSome, Option.isSome_iff_exists]
    constructor
    · rintro ⟨item, h⟩
      have h2 := (sweep_lookup c now k item).1 h
      exact ⟨item, h2.1, not_lt.2 (tooOld_eq_false.1 h2.2)⟩
    · rintro ⟨item, h1, h2⟩
      exact ⟨item, (sweep_lookup c now k item).2 ⟨h1, tooOld_eq_false.2 (not_lt.1 h2)⟩⟩
  refine ⟨hmem, fun item h => ((sweep_lookup c now k item).1 h).1, ?_, rfl⟩
  intro hk hafter
  obtain ⟨item, h1, _⟩ := hmem.1 hafter
  exact hk (AList.lookup_isSome.1 (by rw [h1]; rfl))

/-- C5, the claim as stated fails: with `nginx` written at 0 and a timeout of one second,
at the instant `now = timestamp + TTL` the condition `now < timestamp + TTL` is false, yet
`getLatestImage` serves the cached value without invoking the registry lookup, and a sweep
at that instant keeps the entry. -/
theorem C5_boundary_counterexample :
    exHash "nginx" () = ("nginx", none)
      ∧ exCtrl.imageCache.lookup "nginx" = some ⟨0, some "1.0"⟩
      ∧ (exEnvOk 1000000000 "2.0" 1000000000).now = (0 : Time) + exCtrl.cacheTimeout
      ∧ ¬ (fetchCount
              (getLatestImage exHash exCtrl (exEnvOk 1000000000 "2.0" 1000000000) "nginx" ()).trace
              = 0
            ↔ (exEnvOk 1000000000 "2.0" 1000000000).now < (0 : Time) + exCtrl.cacheTimeout)
      ∧ Event.LatestTagFromImage
          ∉ (getLatestImage exHash exCtrl (exEnvOk 1000000000 "2.0" 1000000000) "nginx" ()).trace
      ∧ (getLatestImage exHash exCtrl (exEnvOk 1000000000 "2.0" 1000000000) "nginx" ()).ret
          = (some "1.0", none)
      ∧ (garbageCollectSweep exCtrl 1000000000).1.imageCache.lookup "nginx"
          = some ⟨0, some "1.0"⟩ := by
  decide

/-- C5 as amended: for an entry found under the derived key, `getLatestImage` serves it from
the cache (no registry lookup, the value of the entry returned, controller unchanged) if and
only if `now <= entry.timestamp + TTL`, and invokes the registry lookup, once, if and only if
`entry.timestamp + TTL < now`; a sweep whose clock reading is `sweepNow` keeps the entry if
and only if `sweepNow <= entry.timestamp + TTL`.  In particular at the instant
`entry.timestamp + TTL` exactly the entry is served and kept. -/
theorem C5_boundary_amended (H : String → Opts → Key × GoError Err)
    (c : Controller Key ImageTag) (env : CallEnv Opts ImageTag Err) (imageURL : String)
    (opts : Opts) (k : Key) (item : imageCacheItem ImageTag) (sweepNow : Time)
    (hkey : H imageURL opts = (k, none))
    (hfound : c.imageCache.lookup k = some item) :
    ((fetchCount (getLatestImage H c env imageURL opts).trace = 0
          ∧ (getLatestImage H c env imageURL opts).ret = (item.latestImage, none)
          ∧ (getLatestImage H c env imageURL opts).ctrl = c)
        ↔ env.now ≤ item.timestamp + c.cacheTimeout)
      ∧ (fetchCount (getLatestImage H c env imageURL opts).trace = 1
        ↔ item.timestamp + c.cacheTimeout < env.now)
      ∧ ((garbageCollectSweep c sweepNow).1.imageCache.lookup k = some item
        ↔ sweepNow ≤ item.timestamp + c.cacheTimeout)
      ∧ ((garbageCollectSweep c sweepNow).1.imageCache.lookup k = none
        ↔ item.timestamp + c.cacheTimeout < sweepNow)
      ∧ ((garbageCollectSweep c (item.timestamp + c.cacheTimeout)).1.imageCache.lookup k
        = some item) := by
  have hmem := fetch_mem_trace_iff H c env imageURL opts
  rw [hkey] at hmem
  simp only [hfound, reduceCtorEq, Option.some.injEq, exists_eq_left', false_or, true_and]
    at hmem
  have hcount := fetchCount_eq H c env imageURL opts
  have hsweep : ∀ t : Time, (garbageCollectSweep c t).1.imageCache.lookup k = some item
      ↔ t ≤ item.timestamp + c.cacheTimeout := by
    intro t
    rw [sweep_lookup, tooOld_eq_false]
    simp [hfound]
  refine ⟨?_, ?_, hsweep sweepNow, ?_, (hsweep _).2 (le_refl _)⟩
  · constructor
    · rintro ⟨h0, _, _⟩
      by_contra hlt
      rw [if_pos (hmem.2 (not_le.1 hlt))] at hcount
      omega
    · intro hle
      rw [getLatestImage_hit H c env imageURL opts k item hkey hfound (tooOld_eq_false.2 hle)]
      simp [fetchCount]
  · constructor
    · intro h1
      by_contra hnot
      rw [if_neg (fun hm => hnot (hmem.1 hm))] at hcount
      omega
    · intro hlt
      rw [hcount, if_pos (hmem.2 hlt)]
  · constructor
    · intro hnone
      by_contra hnot
      rw [(hsweep sweepNow).2 (not_lt.1 hnot)] at hnone
      exact absurd hnone (by simp)
    · intro hlt
      rcases hl : (garbageCollectSweep c sweepNow).1.imageCache.lookup k with _ | item2
      · rfl
      · have h2 := (sweep_lookup c sweepNow k item2).1 hl
        rw [hfound] at h2
        simp only [Option.some.injEq] at h2
        obtain ⟨h3, h4⟩ := h2
        subst h3
        exact absurd hlt (not_lt.2 (tooOld_eq_false.1 h4))

/-- C5 as amended, at the boundary instant of the example: served and kept. -/
theorem C5_boundary_amended_witness :
    exHash "nginx" () = ("nginx", none)
      ∧ exCtrl.imageCache.lookup "nginx" = some ⟨0, some "1.0"⟩
      ∧ ((fetchCount
              (getLatestImage exHash exCtrl (exEnvOk 1000000000 "2.0" 1000000000) "nginx" ()).trace
              = 0
            ∧ (getLatestImage exHash exCtrl (exEnvOk 1000000000 "2.0" 1000000000) "nginx" ()).ret
              = (some "1.0", none)
            ∧ (getLatestImage exHash exCtrl (exEnvOk 1000000000 "2.0" 1000000000) "nginx" ()).ctrl
              = exCtrl)
          ↔ (exEnvOk 1000000000 "2.0" 1000000000).now ≤ (0 : Time) + exCtrl.cacheTimeout)
      ∧ (garbageCollectSweep exCtrl ((0 : Time) + exCtrl.cacheTimeout)).1.imageCache.lookup "nginx"
          = some ⟨0, some "1.0"⟩ :=
  have h := C5_boundary_amended exHash exCtrl (exEnvOk 1000000000 "2.0" 1000000000) "nginx" ()
    "nginx" ⟨0, some "1.0"⟩ 1000000000 (by decide) (by decide)
  ⟨by decide, by decide, h.1, h.2.2.2.2⟩

/-- C6 (read after write): if a call for `k` invokes the registry lookup, receives `v` with
a nil error and commits at `w`, then a call for `k` that follows directly, at a time `t` with
`w <= t < w + TTL`, returns `v` with a nil error, does not invoke the registry lookup, and
leaves the controller unchanged. -/
theorem C6_read_after_write (H : String → Opts → Key × GoError Err)
    (c : Controller Key ImageTag) (env₁ env₂ : CallEnv Opts ImageTag Err)
    (url₁ url₂ : String) (opts₁ opts₂ : Opts) (k : Key) (v : ImageTagPtr ImageTag)
    (hkey₁ : H url₁ opts₁ = (k, none))
    (hinvoked : Event.LatestTagFromImage ∈ (getLatestImage H c env₁ url₁ opts₁).trace)
    (hfetch : env₁.LatestTagFromImage opts₁ url₁ = (v, none))
    (hkey₂ : H url₂ opts₂ = (k, none))
    (_hafter : env₁.commitNow ≤ env₂.now)
    (hwithin : env₂.now < env₁.commitNow + c.cacheTimeout) :
    (getLatestImage H (getLatestImage H c env₁ url₁ opts₁).ctrl env₂ url₂ opts₂).ret = (v, none)
      ∧ fetchCount
          (getLatestImage H (getLatestImage H c env₁ url₁ opts₁).ctrl env₂ url₂ opts₂).trace = 0
      ∧ (getLatestImage H (getLatestImage H c env₁ url₁ opts₁).ctrl env₂ url₂ opts₂).ctrl
          = (getLatestImage H c env₁ url₁ opts₁).ctrl := by
  have hctrl : (getLatestImage H c env₁ url₁ opts₁).ctrl
      = { c with imageCache := c.imageCache.insert k ⟨env₁.commitNow, v⟩ } := by
    have hm := (fetch_mem_trace_iff H c env₁ url₁ opts₁).1 hinvoked
    rw [hkey₁] at hm
    rcases hm.2 with hnone | ⟨item, hfound, hlt⟩
    · rw [getLatestImage_miss H c env₁ url₁ opts₁ k hkey₁ hnone, hfetch]
    · rw [getLatestImage_stale H c env₁ url₁ opts₁ k item hkey₁ hfound (tooOld_eq_true.2 hlt),
        hfetch]
  rw [hctrl]
  rw [getLatestImage_hit H
    { c with imageCache := c.imageCache.insert k ⟨env₁.commitNow, v⟩ } env₂ url₂ opts₂ k
    ⟨env₁.commitNow, v⟩ hkey₂ (AList.lookup_insert _) (tooOld_eq_false.2 (le_of_lt hwithin))]
  simp [fetchCount]

/-- C6 at a concrete input: `nginx` fetched into an empty cache at 0 is served at 0.5s. -/
theorem C6_read_after_write_witness :
    exHash "nginx" () = ("nginx", none)
      ∧ Event.LatestTagFromImage ∈ (getLatestImage exHash exEmpty (exEnvOk 0 "A" 3) "nginx" ()).trace
      ∧ (exEnvOk 0 "A" 3).commitNow ≤ (exEnvOk 500000000 "B" 500000000).now
      ∧ (exEnvOk 500000000 "B" 500000000).now < (exEnvOk 0 "A" 3).commitNow + exEmpty.cacheTimeout
      ∧ (getLatestImage exHash (getLatestImage exHash exEmpty (exEnvOk 0 "A" 3) "nginx" ()).ctrl
            (exEnvOk 500000000 "B" 500000000) "nginx" ()).ret = (some "A", none)
      ∧ fetchCount
          (getLatestImage exHash (getLatestImage exHash exEmpty (exEnvOk 0 "A" 3) "nginx" ()).ctrl
            (exEnvOk 500000000 "B" 500000000) "nginx" ()).trace = 0 :=
  have h := C6_read_after_write exHash exEmpty (exEnvOk 0 "A" 3) (exEnvOk 500000000 "B" 500000000)
    "nginx" "nginx" () () "nginx" (some "A") (by decide) (by decide) rfl (by decide)
    (by decide) (by decide)
  ⟨by decide, by decide, by decide, by decide, h.1, h.2.1⟩

/-- C7 (key derivation failure): when key derivation fails with error `e`, `getLatestImage`
returns a nil value with `e`, performs no effect at all (no shared lock, no exclusive lock,
no clock reading, no registry lookup), and leaves the controller unchanged. -/
theorem C7_key_derivation_failure (H : String → Opts → Key × GoError Err)
    (c : Controller Key ImageTag) (env : CallEnv Opts ImageTag Err) (imageURL : String)
    (opts : Opts) (e : Err)
    (hkey : (H imageURL opts).2 = some e) :
    (getLatestImage H c env imageURL opts).ret = (none, some e)
      ∧ (getLatestImage H c env imageURL opts).trace = []
      ∧ Event.RLock ∉ (getLatestImage H c env imageURL opts).trace
      ∧ Event.Lock ∉ (getLatestImage H c env imageURL opts).trace
      ∧ Event.LatestTagFromImage ∉ (getLatestImage H c env imageURL opts).trace
      ∧ (getLatestImage H c env imageURL opts).ctrl = c := by
  rcases hk : H imageURL opts with ⟨k, ke⟩
  rw [hk] at hkey
  simp only at hkey
  subst hkey
  rw [getLatestImage_keyError H c env imageURL opts k e hk]
  simp

/-- C7 at a concrete input: the empty image URL has no key. -/
theorem C7_key_derivation_failure_witness :
    (exHash "" ()).2 = some "empty image URL"
      ∧ (getLatestImage exHash exCtrl (exEnvOk 0 "A" 0) "" ()).ret
          = (none, some "empty image URL")
      ∧ (getLatestImage exHash exCtrl (exEnvOk 0 "A" 0) "" ()).trace = []
      ∧ (getLatestImage exHash exCtrl (exEnvOk 0 "A" 0) "" ()).ctrl = exCtrl :=
  have h := C7_key_derivation_failure exHash exCtrl (exEnvOk 0 "A" 0) "" ()
    "empty image URL" (by decide)
  ⟨by decide, h.1, h.2.1, h.2.2.2.2.2⟩

/-- C8 (fetch count): a call of `getLatestImage` invokes the registry lookup at most once,
whatever the lookup answers; exactly once if and only if key derivation succeeded and the
entry of the key is absent or has `entry.timestamp + TTL < now` at the test; and not at all
otherwise. -/
theorem C8_fetch_count (H : String → Opts → Key × GoError Err)
    (c : Controller Key ImageTag) (env : CallEnv Opts ImageTag Err) (imageURL : String)
    (opts : Opts) :
    fetchCount (getLatestImage H c env imageURL opts).trace ≤ 1
      ∧ (fetchCount (getLatestImage H c env imageURL opts).trace = 1
        ↔ (H imageURL opts).2 = none
            ∧ (c.imageCache.lookup (H imageURL opts).1 = none
              ∨ ∃ item, c.imageCache.lookup (H imageURL opts).1 = some item
                  ∧ item.timestamp + c.cacheTimeout < env.now))
      ∧ (¬ ((H imageURL opts).2 = none
            ∧ (c.imageCache.lookup (H imageURL opts).1 = none
              ∨ ∃ item, c.imageCache.lookup (H imageURL opts).1 = some item
                  ∧ item.timestamp + c.cacheTimeout < env.now))
        → fetchCount (getLatestImage H c env imageURL opts).trace = 0) := by
  have hmem := fetch_mem_trace_iff H c env imageURL opts
  have hcount := fetchCount_eq H c env imageURL opts
  by_cases hm : Event.LatestTagFromImage ∈ (getLatestImage H c env imageURL opts).trace
  · rw [if_pos hm] at hcount
    refine ⟨by omega, ⟨fun _ => hmem.1 hm, fun _ => hcount⟩, fun hnot => absurd (hmem.1 hm) hnot⟩
  · rw [if_neg hm] at hcount
    refine ⟨by omega, ⟨fun h1 => by omega, fun h => absurd (hmem.2 h) hm⟩, fun _ => hcount⟩

/-- C9 (retry after failure): if a call for `k` at time `t` invoked the registry lookup and
the lookup failed, then, after any sequence of sweeps and of calls for other keys, the next
call for `k` at a time `t2 >= t` invokes the registry lookup again, once, and returns what
that lookup answers. -/
theorem C9_retry_after_failure (H : String → Opts → Key × GoError Err)
    (c : Controller Key ImageTag) (env₁ env₂ : CallEnv Opts ImageTag Err)
    (url₁ url₂ : String) (opts₁ opts₂ : Opts) (k : Key) (e : Err)
    (between : List (Op Opts ImageTag Err))
    (hkey₁ : H url₁ opts₁ = (k, none))
    (hinvoked : Event.LatestTagFromImage ∈ (getLatestImage H c env₁ url₁ opts₁).trace)
    (hfail : (env₁.LatestTagFromImage opts₁ url₁).2 = some e)
    (hbetween : ∀ op ∈ between, isCallFor H k op = false)
    (hkey₂ : H url₂ opts₂ = (k, none))
    (hle : env₁.now ≤ env₂.now) :
    Event.LatestTagFromImage
        ∈ (getLatestImage H (runOps H (getLatestImage H c env₁ url₁ opts₁).ctrl between)
            env₂ url₂ opts₂).trace
      ∧ fetchCount
          (getLatestImage H (runOps H (getLatestImage H c env₁ url₁ opts₁).ctrl between)
            env₂ url₂ opts₂).trace = 1
      ∧ (getLatestImage H (runOps H (getLatestImage H c env₁ url₁ opts₁).ctrl between)
            env₂ url₂ opts₂).ret
          = match env₂.LatestTagFromImage opts₂ url₂ with
            | (_, some err) => (none, some err)
            | (latestImage, none) => (latestImage, none) := by
  have hm := (fetch_mem_trace_iff H c env₁ url₁ opts₁).1 hinvoked
  rw [hkey₁] at hm
  have hsame : (getLatestImage H c env₁ url₁ opts₁).ctrl = c := by
    rcases getLatestImage_ctrl H c env₁ url₁ opts₁ with h | ⟨_, v, _, hok, _, _⟩
    · exact h
    · rw [hok] at hfail
      exact absurd hfail (by simp)
  rw [hsame]
  have hinv := runOps_keeps_stale H k env₁.now between c hbetween hm.2
  have hmem2 : Event.LatestTagFromImage
      ∈ (getLatestImage H (runOps H c between) env₂ url₂ opts₂).trace := by
    rw [fetch_mem_trace_iff, hkey₂]
    refine ⟨rfl, ?_⟩
    rcases hinv.2 with h | ⟨item, h1, h2⟩
    · exact Or.inl h
    · exact Or.inr ⟨item, h1, lt_of_lt_of_le h2 hle⟩
  refine ⟨hmem2, ?_, ret_of_fetch H _ env₂ url₂ opts₂ hmem2⟩
  rw [fetchCount_eq, if_pos hmem2]

/-- C9 at a concrete input: a failed lookup of the stale `nginx` entry at 1.5s, then a sweep
and a call for `redis`, then a call for `nginx` at 2s that invokes the lookup again. -/
theorem C9_retry_after_failure_witness :
    exHash "nginx" () = ("nginx", none)
      ∧ Event.LatestTagFromImage
          ∈ (getLatestImage exHash exCtrl (exEnvFail 1500000000) "nginx" ()).trace
      ∧ ((exEnvFail 1500000000).LatestTagFromImage () "nginx").2 = some "registry unreachable"
      ∧ (∀ op ∈ exBetween, isCallFor exHash "nginx" op = false)
      ∧ (exEnvFail 1500000000).now ≤ exRetryEnv.now
      ∧ fetchCount
          (getLatestImage exHash
            (runOps exHash (getLatestImage exHash exCtrl (exEnvFail 1500000000) "nginx" ()).ctrl
              exBetween)
            exRetryEnv "nginx" ()).trace = 1
      ∧ (getLatestImage exHash
            (runOps exHash (getLatestImage exHash exCtrl (exEnvFail 1500000000) "nginx" ()).ctrl
              exBetween)
            exRetryEnv "nginx" ()).ret = (some "2.0", none) :=
  have hb : ∀ op ∈ exBetween, isCallFor exHash "nginx" op = false := by
    intro op hop
    simp only [exBetween, List.mem_cons, List.mem_singleton, List.not_mem_nil, or_false] at hop
    rcases hop with h | h <;> subst h <;> decide
  have h := C9_retry_after_failure exHash exCtrl (exEnvFail 1500000000) exRetryEnv
    "nginx" "nginx" () () "nginx" "registry unreachable" exBetween
    (by decide) (by decide) rfl hb (by decide) (by decide)
  ⟨by decide, by decide, rfl, hb, by decide, h.2.1, h.2.2⟩

/-- C10 (the scenario of the specification): with a timeout of one second and a cache that
does not hold `K1` (the empty cache in particular), the call for `K1` at 0 invokes the
registry lookup, returns `A` and stores `K1` with timestamp 0; the call at 0.5s returns `A`
without a lookup; the call at 1.5s invokes the lookup again, returns `B` and stores `K1` with
timestamp 1.5s; the sweep at 1.6s keeps that entry of `K1` and removes every other key whose
entry was written before 0.6s (and keeps the other entries written at 0.6s or later). -/
theorem C10_scenario (H : String → Opts → Key × GoError Err) (c : Controller Key ImageTag)
    (f₁ f₂ f₃ : Opts → String → ImageTagPtr ImageTag × GoError Err)
    (imageURL : String) (opts : Opts) (K1 : Key) (A B : ImageTagPtr ImageTag)
    (httl : c.cacheTimeout = Second)
    (hkey : H imageURL opts = (K1, none))
    (habsent : c.imageCache.lookup K1 = none)
    (hA : f₁ opts imageURL = (A, none))
    (hB : f₃ opts imageURL = (B, none)) :
    ((scenario H c f₁ f₂ f₃ imageURL opts).first.ret = (A, none)
        ∧ fetchCount (scenario H c f₁ f₂ f₃ imageURL opts).first.trace = 1
        ∧ (scenario H c f₁ f₂ f₃ imageURL opts).first.ctrl.imageCache.lookup K1
            = some ⟨0, A⟩)
      ∧ ((scenario H c f₁ f₂ f₃ imageURL opts).second.ret = (A, none)
        ∧ fetchCount (scenario H c f₁ f₂ f₃ imageURL opts).second.trace = 0
        ∧ (scenario H c f₁ f₂ f₃ imageURL opts).second.ctrl
            = (scenario H c f₁ f₂ f₃ imageURL opts).first.ctrl)
      ∧ ((scenario H c f₁ f₂ f₃ imageURL opts).third.ret = (B, none)
        ∧ fetchCount (scenario H c f₁ f₂ f₃ imageURL opts).third.trace = 1
        ∧ (scenario H c f₁ f₂ f₃ imageURL opts).third.ctrl.imageCache.lookup K1
            = some ⟨1500000000, B⟩)
      ∧ ((scenario H c f₁ f₂ f₃ imageURL opts).swept.imageCache.lookup K1
            = some ⟨1500000000, B⟩
        ∧ ∀ k item, k ≠ K1 → c.imageCache.lookup k = some item →
            (scenario H c f₁ f₂ f₃ imageURL opts).third.ctrl.imageCache.lookup k = some item
            ∧ (item.timestamp < 600000000 →
                (scenario H c f₁ f₂ f₃ imageURL opts).swept.imageCache.lookup k = none)
            ∧ (600000000 ≤ item.timestamp →
                (scenario H c f₁ f₂ f₃ imageURL opts).swept.imageCache.lookup k = some item)) := by
  have h1 : getLatestImage H c ⟨0, f₁, 0⟩ imageURL opts
      = ⟨(A, none), { c with imageCache := c.imageCache.insert K1 ⟨0, A⟩ },
          [Event.RLock, Event.RUnlock, Event.Lock, Event.LatestTagFromImage, Event.Now,
            Event.Unlock]⟩ := by
    rw [getLatestImage_miss H c _ imageURL opts K1 hkey habsent]
    simp only [hA]
  have h2 : getLatestImage H { c with imageCache := c.imageCache.insert K1 ⟨0, A⟩ }
        ⟨500000000, f₂, 500000000⟩ imageURL opts
      = ⟨(A, none), { c with imageCache := c.imageCache.insert K1 ⟨0, A⟩ },
          [Event.RLock, Event.RUnlock, Event.Now]⟩ :=
    getLatestImage_hit H { c with imageCache := c.imageCache.insert K1 ⟨0, A⟩ }
      ⟨500000000, f₂, 500000000⟩ imageURL opts K1 ⟨0, A⟩ hkey (AList.lookup_insert _)
      (by rw [tooOld_eq_false]; simp only [httl, Second]; decide)
  have hins : (c.imageCache.insert K1 ⟨0, A⟩).insert K1 ⟨1500000000, B⟩
      = c.imageCache.insert K1 ⟨1500000000, B⟩ := AList.insert_insert _
  have h3 : getLatestImage H { c with imageCache := c.imageCache.insert K1 ⟨0, A⟩ }
        ⟨1500000000, f₃, 1500000000⟩ imageURL opts
      = ⟨(B, none), { c with imageCache := c.imageCache.insert K1 ⟨1500000000, B⟩ },
          [Event.RLock, Event.RUnlock, Event.Now, Event.Lock, Event.LatestTagFromImage,
            Event.Now, Event.Unlock]⟩ := by
    rw [getLatestImage_stale H { c with imageCache := c.imageCache.insert K1 ⟨0, A⟩ }
      ⟨1500000000, f₃, 1500000000⟩ imageURL opts K1 ⟨0, A⟩ hkey (AList.lookup_insert _)
      (by rw [tooOld_eq_true]; simp only [httl, Second]; decide)]
    simp only [hB, hins]
  have hsc : scenario H c f₁ f₂ f₃ imageURL opts
      = ⟨⟨(A, none), { c with imageCache := c.imageCache.insert K1 ⟨0, A⟩ },
            [Event.RLock, Event.RUnlock, Event.Lock, Event.LatestTagFromImage, Event.Now,
              Event.Unlock]⟩,
          ⟨(A, none), { c with imageCache := c.imageCache.insert K1 ⟨0, A⟩ },
            [Event.RLock, Event.RUnlock, Event.Now]⟩,
          ⟨(B, none), { c with imageCache := c.imageCache.insert K1 ⟨1500000000, B⟩ },
            [Event.RLock, Event.RUnlock, Event.Now, Event.Lock, Event.LatestTagFromImage,
              Event.Now, Event.Unlock]⟩,
          (garbageCollectSweep
            { c with imageCache := c.imageCache.insert K1 ⟨1500000000, B⟩ } 1600000000).1⟩ := by
    simp only [scenario, h1, h2, h3]
  rw [hsc]
  refine ⟨⟨rfl, by simp [fetchCount], AList.lookup_insert _⟩, ⟨rfl, by simp [fetchCount], rfl⟩,
    ⟨rfl, by simp [fetchCount], AList.lookup_insert _⟩, ?_, ?_⟩
  · rw [sweep_lookup]
    refine ⟨AList.lookup_insert _, ?_⟩
    rw [tooOld_eq_false]
    simp only [httl, Second]
    decide
  · intro k item hne hfound
    have hl : (c.imageCache.insert K1 ⟨1500000000, B⟩).lookup k = some item := by
      rw [AList.lookup_insert_ne hne]; exact hfound
    refine ⟨hl, ?_, ?_⟩
    · intro hlt
      rcases hs : (garbageCollectSweep
          { c with imageCache := c.imageCache.insert K1 ⟨1500000000, B⟩ }
          1600000000).1.imageCache.lookup k with _ | item2
      · rfl
      · have h4 := (sweep_lookup _ _ _ _).1 hs
        rw [hl] at h4
        obtain ⟨h5, h6⟩ := h4
        simp only [Option.some.injEq] at h5
        subst h5
        rw [tooOld_eq_false] at h6
        simp only [httl, Second] at h6
        linarith
    · intro hge
      rw [sweep_lookup]
      refine ⟨hl, ?_⟩
      rw [tooOld_eq_false]
      simp only [httl, Second]
      linarith

/-- C10 at concrete inputs: the scenario on the empty cache with `K1 = nginx`, and on the
cache that holds `nginx` written at 0 with `K1 = redis`, where the sweep removes `nginx`. -/
theorem C10_scenario_witness :
    (exEmpty.cacheTimeout = Second
      ∧ exHash "nginx" () = ("nginx", none)
      ∧ exEmpty.imageCache.lookup "nginx" = none
      ∧ (scenario exHash exEmpty (fun _ _ => (some "A", none)) (fun _ _ => (none, some "down"))
            (fun _ _ => (some "B", none)) "nginx" ()).first.ctrl.imageCache.lookup "nginx"
          = some ⟨0, some "A"⟩
      ∧ (scenario exHash exEmpty (fun _ _ => (some "A", none)) (fun _ _ => (none, some "down"))
            (fun _ _ => (some "B", none)) "nginx" ()).second.ret = (some "A", none)
      ∧ (scenario exHash exEmpty (fun _ _ => (some "A", none)) (fun _ _ => (none, some "down"))
            (fun _ _ => (some "B", none)) "nginx" ()).third.ret = (some "B", none)
      ∧ (scenario exHash exEmpty (fun _ _ => (some "A", none)) (fun _ _ => (none, some "down"))
            (fun _ _ => (some "B", none)) "nginx" ()).swept.imageCache.lookup "nginx"
          = some ⟨1500000000, some "B"⟩)
    ∧ (exCtrl.cacheTimeout = Second
      ∧ exHash "redis" () = ("redis", none)
      ∧ exCtrl.imageCache.lookup "redis" = none
      ∧ exCtrl.imageCache.lookup "nginx" = some ⟨0, some "1.0"⟩
      ∧ (scenario exHash exCtrl (fun _ _ => (some "A", none)) (fun _ _ => (none, some "down"))
            (fun _ _ => (some "B", none)) "redis" ()).swept.imageCache.lookup "redis"
          = some ⟨1500000000, some "B"⟩
      ∧ (scenario exHash exCtrl (fun _ _ => (some "A", none)) (fun _ _ => (none, some "down"))
            (fun _ _ => (some "B", none)) "redis" ()).swept.imageCache.lookup "nginx" = none) :=
  have h := C10_scenario exHash exEmpty (fun _ _ => (some "A", none))
    (fun _ _ => (none, some "down")) (fun _ _ => (some "B", none)) "nginx" () "nginx"
    (some "A") (some "B") rfl (by decide) (by decide) rfl rfl
  have g := C10_scenario exHash exCtrl (fun _ _ => (some "A", none))
    (fun _ _ => (none, some "down")) (fun _ _ => (some "B", none)) "redis" () "redis"
    (some "A") (some "B") rfl (by decide) (by decide) rfl rfl
  ⟨⟨rfl, by decide, by decide, h.1.2.2, h.2.1.1, h.2.2.1.1, h.2.2.2.1⟩,
    ⟨rfl, by decide, by decide, by decide, g.2.2.2.1,
      (g.2.2.2.2 "nginx" ⟨0, some "1.0"⟩ (by decide) (by decide)).2.1 (by decide)⟩⟩

/-- C11 (entry lifecycle, frame): a call of `getLatestImage` removes no key; it leaves every
key other than the derived key with the entry it had; the entry of the derived key changes
only when the registry lookup was invoked and succeeded, and then the key maps to the whole
new entry (commit-time clock reading, fetched value).  A sweep creates no entry and every
entry found after it is the entry that was there before, timestamp and value. -/
theorem C11_entry_lifecycle (H : String → Opts → Key × GoError Err)
    (c : Controller Key ImageTag) (env : CallEnv Opts ImageTag Err) (imageURL : String)
    (opts : Opts) (sweepNow : Time) (k : Key) :
    (k ∈ c.imageCache → k ∈ (getLatestImage H c env imageURL opts).ctrl.imageCache)
      ∧ (H imageURL opts ≠ (k, none) →
          (getLatestImage H c env imageURL opts).ctrl.imageCache.lookup k
            = c.imageCache.lookup k)
      ∧ ((getLatestImage H c env imageURL opts).ctrl.imageCache.lookup k
            ≠ c.imageCache.lookup k →
          H imageURL opts = (k, none)
            ∧ Event.LatestTagFromImage ∈ (getLatestImage H c env imageURL opts).trace
            ∧ (env.LatestTagFromImage opts imageURL).2 = none)
      ∧ (H imageURL opts = (k, none)
            → Event.LatestTagFromImage ∈ (getLatestImage H c env imageURL opts).trace
            → (env.LatestTagFromImage opts imageURL).2 = none
            → (getLatestImage H c env imageURL opts).ctrl.imageCache.lookup k
                = some ⟨env.commitNow, (env.LatestTagFromImage opts imageURL).1⟩)
      ∧ (k ∉ c.imageCache → k ∉ (garbageCollectSweep c sweepNow).1.imageCache)
      ∧ (∀ item, (garbageCollectSweep c sweepNow).1.imageCache.lookup k = some item
            → c.imageCache.lookup k = some item) := by
  have hframe : H imageURL opts ≠ (k, none) →
      (getLatestImage H c env imageURL opts).ctrl.imageCache.lookup k
        = c.imageCache.lookup k := by
    intro hne
    rcases getLatestImage_ctrl H c env imageURL opts with h | ⟨k2, v, hk2, _, _, h⟩
    · rw [h]
    · rw [h]
      have hkk : k ≠ k2 := fun heq => hne (by rw [hk2, heq])
      exact AList.lookup_insert_ne hkk
  refine ⟨?_, hframe, ?_, ?_, ?_, fun item h => ((sweep_lookup c sweepNow k item).1 h).1⟩
  · intro hmem
    rcases getLatestImage_ctrl H c env imageURL opts with h | ⟨k2, v, _, _, _, h⟩
    · rw [h]; exact hmem
    · rw [h]
      exact (AList.mem_insert _).2 (by
        by_cases hkk : k = k2
        · exact Or.inl hkk
        · exact Or.inr hmem)
  · intro hchg
    rcases getLatestImage_ctrl H c env imageURL opts with h | ⟨k2, v, hk2, hok, hinv, h⟩
    · rw [h] at hchg
      exact absurd rfl hchg
    · by_cases hkk : H imageURL opts = (k, none)
      · exact ⟨hkk, hinv, by rw [hok]⟩
      · exact absurd (hframe hkk) hchg
  · intro hkey hinv hok
    rcases getLatestImage_ctrl H c env imageURL opts with h | ⟨k2, v, hk2, hv, _, h⟩
    · rcases hf : env.LatestTagFromImage opts imageURL with ⟨v, e⟩
      rw [hf] at hok
      simp only at hok
      subst hok
      have hm := (fetch_mem_trace_iff H c env imageURL opts).1 hinv
      rw [hkey] at hm
      rcases hm.2 with hnone | ⟨item, hfound, hlt⟩
      · rw [getLatestImage_miss H c env imageURL opts k hkey hnone, hf]
        simp
      · rw [getLatestImage_stale H c env imageURL opts k item hkey hfound
          (tooOld_eq_true.2 hlt), hf]
        simp
    · rw [h, hv]
      rw [hk2] at hkey
      simp only [Prod.mk.injEq, and_true] at hkey
      subst hkey
      exact AList.lookup_insert _
  · intro hk hafter
    have h1 := AList.lookup_isSome.2 hafter
    rw [Option.isSome_iff_exists] at h1
    obtain ⟨item, hitem⟩ := h1
    have h2 := ((sweep_lookup c sweepNow k item).1 hitem).1
    exact hk (AList.lookup_isSome.1 (by rw [h2]; rfl))

/-- C12 (lock balance): run on the lock with no holder, the lock events of every call of
`getLatestImage`, whichever of its exits it takes, go through and leave the lock with no
holder; whenever the call reads the clock for the staleness test or asks for the exclusive
lock, it has already released the shared lock (no reader is registered); and the three events
of a sweep, acquire, clock reading, release, also leave the lock with no holder. -/
theorem C12_lock_balance (H : String → Opts → Key × GoError Err)
    (c : Controller Key ImageTag) (env : CallEnv Opts ImageTag Err) (imageURL : String)
    (opts : Opts) (sweepNow : Time) :
    lockRun RWMutex.free (getLatestImage H c env imageURL opts).trace = some RWMutex.free
      ∧ (∀ pre post, (getLatestImage H c env imageURL opts).trace = pre ++ Event.Lock :: post →
          lockRun RWMutex.free pre = some RWMutex.free)
      ∧ (∀ pre post, (getLatestImage H c env imageURL opts).trace = pre ++ Event.Now :: post →
          ∃ m, lockRun RWMutex.free pre = some m ∧ m.readers = 0)
      ∧ (garbageCollectSweep c sweepNow).2 = [Event.Lock, Event.Now, Event.Unlock]
      ∧ lockRun RWMutex.free (garbageCollectSweep c sweepNow).2 = some RWMutex.free := by
  have hcases := getLatestImage_trace_cases H c env imageURL opts
  simp only [List.mem_cons, List.mem_singleton, List.not_mem_nil, or_false] at hcases
  refine ⟨?_, ?_, ?_, rfl, rfl⟩
  · rcases hcases with h | h | h | h | h | h <;> rw [h] <;> decide
  · apply forall_prefixesBefore
    rcases hcases with h | h | h | h | h | h <;> rw [h] <;> decide
  · have hreaders : ∀ pre post,
        (getLatestImage H c env imageURL opts).trace = pre ++ Event.Now :: post →
        (lockRun RWMutex.free pre).map RWMutex.readers = some 0 := by
      apply forall_prefixesBefore
      rcases hcases with h | h | h | h | h | h <;> rw [h] <;> decide
    intro pre post hsplit
    have h0 := hreaders pre post hsplit
    cases hrun : lockRun RWMutex.free pre with
    | none => rw [hrun] at h0; exact absurd h0 (by simp)
    | some m =>
      rw [hrun] at h0
      exact ⟨m, rfl, by simpa using h0⟩

/-- C15 (the garbage collector is invisible to callers): for a sweep at `s` and a call whose
clock reading at the staleness test is `t >= s`, with the same surroundings, `getLatestImage`
on the swept controller returns the same pair and invokes the registry lookup the same number
of times as on the controller that was not swept; and an entry that the sweep removes is too
old at `t`, so the call would not have served it from the cache. -/
theorem C15_sweep_invisible (H : String → Opts → Key × GoError Err)
    (c : Controller Key ImageTag) (env : CallEnv Opts ImageTag Err) (imageURL : String)
    (opts : Opts) (s : Time) (hst : s ≤ env.now) :
    (getLatestImage H (garbageCollectSweep c s).1 env imageURL opts).ret
        = (getLatestImage H c env imageURL opts).ret
      ∧ fetchCount (getLatestImage H (garbageCollectSweep c s).1 env imageURL opts).trace
        = fetchCount (getLatestImage H c env imageURL opts).trace
      ∧ (∀ k item, c.imageCache.lookup k = some item →
          (garbageCollectSweep c s).1.imageCache.lookup k = none →
          item.timestamp + c.cacheTimeout < env.now) := by
  have hremoved : ∀ k item, c.imageCache.lookup k = some item →
      (garbageCollectSweep c s).1.imageCache.lookup k = none →
      item.timestamp + c.cacheTimeout < env.now := by
    intro k item hfound hgone
    by_contra hnot
    have hkeep : tooOld c.cacheTimeout item s = false :=
      tooOld_eq_false.2 (le_trans hst (not_lt.1 hnot))
    rw [(sweep_lookup c s k item).2 ⟨hfound, hkeep⟩] at hgone
    exact absurd hgone (by simp)
  refine ⟨?_, ?_, hremoved⟩
  all_goals
    rcases hk : H imageURL opts with ⟨k, _ | ke⟩
    · rcases hl : c.imageCache.lookup k with _ | item
      · have hl2 : (garbageCollectSweep c s).1.imageCache.lookup k = none := by
          rcases sweep_lookup_cases c s k with h | h
          · exact h
          · rw [h, hl]
        rw [getLatestImage_miss H c env imageURL opts k hk hl,
          getLatestImage_miss H _ env imageURL opts k hk hl2]
        rcases hf : env.LatestTagFromImage opts imageURL with ⟨v, _ | e⟩ <;> simp
      · rcases hl2 : (garbageCollectSweep c s).1.imageCache.lookup k with _ | item2
        · have hold := tooOld_eq_true.2 (hremoved k item hl hl2)
          rw [getLatestImage_stale H c env imageURL opts k item hk hl hold,
            getLatestImage_miss H _ env imageURL opts k hk hl2]
          rcases hf : env.LatestTagFromImage opts imageURL with ⟨v, _ | e⟩ <;> simp [fetchCount]
        · have hsame := ((sweep_lookup c s k item2).1 hl2).1
          rw [hl] at hsame
          simp only [Option.some.injEq] at hsame
          subst hsame
          rcases ho : tooOld c.cacheTimeout item env.now
          · rw [getLatestImage_hit H c env imageURL opts k item hk hl ho,
              getLatestImage_hit H _ env imageURL opts k item hk hl2 ho]
          · rw [getLatestImage_stale H c env imageURL opts k item hk hl ho,
              getLatestImage_stale H _ env imageURL opts k item hk hl2 ho]
            rcases hf : env.LatestTagFromImage opts imageURL with ⟨v, _ | e⟩ <;> simp
    · rw [getLatestImage_keyError H c env imageURL opts k ke hk,
        getLatestImage_keyError H _ env imageURL opts k ke hk]

/-- C15 at a concrete input: `nginx` written at 0 is swept away at 1.2s; the call at 1.5s
fetches `2.0` on the swept controller as it does on the controller that was not swept. -/
theorem C15_sweep_invisible_witness :
    (1200000000 : Time) ≤ (exEnvOk 1500000000 "2.0" 1500000000).now
      ∧ (garbageCollectSweep exCtrl 1200000000).1.imageCache.lookup "nginx" = none
      ∧ (getLatestImage exHash (garbageCollectSweep exCtrl 1200000000).1
            (exEnvOk 1500000000 "2.0" 1500000000) "nginx" ()).ret
          = (getLatestImage exHash exCtrl (exEnvOk 1500000000 "2.0" 1500000000) "nginx" ()).ret
      ∧ fetchCount (getLatestImage exHash (garbageCollectSweep exCtrl 1200000000).1
            (exEnvOk 1500000000 "2.0" 1500000000) "nginx" ()).trace
          = fetchCount
              (getLatestImage exHash exCtrl (exEnvOk 1500000000 "2.0" 1500000000) "nginx" ()).trace :=
  have h := C15_sweep_invisible exHash exCtrl (exEnvOk 1500000000 "2.0" 1500000000) "nginx" ()
    1200000000 (by decide)
  ⟨by decide, by decide, h.1, h.2.1⟩

/-- C16 (sweeps compose): for `t1 <= t2`, a sweep at `t1` followed by a sweep at `t2` leaves
the same controller as one sweep at `t2`; a sweep repeated at the same time changes nothing
more; and after a sweep at `t2` every entry left has `t2 <= entry.timestamp + TTL`. -/
theorem C16_sweeps_compose (c : Controller Key ImageTag) (t1 t2 : Time) (hle : t1 ≤ t2) :
    (garbageCollectSweep (garbageCollectSweep c t1).1 t2).1 = (garbageCollectSweep c t2).1
      ∧ garbageCollect c [t1, t2] = garbageCollect c [t2]
      ∧ (garbageCollectSweep (garbageCollectSweep c t2).1 t2).1 = (garbageCollectSweep c t2).1
      ∧ (∀ k item, (garbageCollectSweep c t2).1.imageCache.lookup k = some item →
          t2 ≤ item.timestamp + c.cacheTimeout) := by
  have hcomp : ∀ a b : Time, a ≤ b →
      (garbageCollectSweep (garbageCollectSweep c a).1 b).1 = (garbageCollectSweep c b).1 := by
    intro a b hab
    have hent : (garbageCollectSweep (garbageCollectSweep c a).1 b).1.imageCache
        = (garbageCollectSweep c b).1.imageCache := by
      apply AList.ext
      rw [sweep_entries, sweep_entries, sweep_entries, List.filter_filter]
      apply List.filter_congr
      intro x _
      have himp : tooOld c.cacheTimeout x.2 b = false → tooOld c.cacheTimeout x.2 a = false := by
        intro hb
        exact tooOld_eq_false.2 (le_trans hab (tooOld_eq_false.1 hb))
      rw [sweep_cacheTimeout]
      cases hb : tooOld c.cacheTimeout x.2 b
      · simp [himp hb]
      · simp
    have hto : (garbageCollectSweep (garbageCollectSweep c a).1 b).1.cacheTimeout
        = (garbageCollectSweep c b).1.cacheTimeout := rfl
    cases h1 : (garbageCollectSweep (garbageCollectSweep c a).1 b).1 with
    | mk m1 d1 =>
      cases h2 : (garbageCollectSweep c b).1 with
      | mk m2 d2 =>
        rw [h1, h2] at hent hto
        simp only at hent hto
        rw [hent, hto]
  refine ⟨hcomp t1 t2 hle, ?_, hcomp t2 t2 (le_refl _), ?_⟩
  · show (garbageCollectSweep (garbageCollectSweep c t1).1 t2).1 = (garbageCollectSweep c t2).1
    exact hcomp t1 t2 hle
  · intro k item h
    exact tooOld_eq_false.1 ((sweep_lookup c t2 k item).1 h).2

/-- C16 at a concrete input: sweeping the example controller at 0.5s and then at 1.2s. -/
theorem C16_sweeps_compose_witness :
    (500000000 : Time) ≤ 1200000000
      ∧ (garbageCollectSweep (garbageCollectSweep exCtrl 500000000).1 1200000000).1
          = (garbageCollectSweep exCtrl 1200000000).1
      ∧ (garbageCollectSweep exCtrl 500000000).1.imageCache.lookup "nginx"
          = some ⟨0, some "1.0"⟩
      ∧ (garbageCollectSweep exCtrl 1200000000).1.imageCache.lookup "nginx" = none :=
  have h := C16_sweeps_compose exCtrl 500000000 1200000000 (by decide)
  ⟨by decide, h.1, by decide, by decide⟩

/-- C17 (key isolation): two controllers with the same timeout that agree on the entry of
the derived key (both lack it, or both hold the same entry) give, for the same call in the
same surroundings, the same returned pair, the same effects in the same order (the same
decision whether to invoke the registry lookup in particular), and the same entry for the
key afterwards, whatever they hold under other keys. -/
theorem C17_key_isolation (H : String → Opts → Key × GoError Err)
    (c₁ c₂ : Controller Key ImageTag) (env : CallEnv Opts ImageTag Err) (imageURL : String)
    (opts : Opts)
    (httl : c₁.cacheTimeout = c₂.cacheTimeout)
    (hagree : c₁.imageCache.lookup (H imageURL opts).1
      = c₂.imageCache.lookup (H imageURL opts).1) :
    (getLatestImage H c₁ env imageURL opts).ret = (getLatestImage H c₂ env imageURL opts).ret
      ∧ (getLatestImage H c₁ env imageURL opts).trace
          = (getLatestImage H c₂ env imageURL opts).trace
      ∧ fetchCount (getLatestImage H c₁ env imageURL opts).trace
          = fetchCount (getLatestImage H c₂ env imageURL opts).trace
      ∧ (getLatestImage H c₁ env imageURL opts).ctrl.imageCache.lookup (H imageURL opts).1
          = (getLatestImage H c₂ env imageURL opts).ctrl.imageCache.lookup (H imageURL opts).1 := by
  rcases hk : H imageURL opts with ⟨k, _ | ke⟩
  · rw [hk] at hagree
    simp only at hagree
    rcases hl : c₁.imageCache.lookup k with _ | item
    · have hl2 : c₂.imageCache.lookup k = none := by rw [← hagree, hl]
      rw [getLatestImage_miss H c₁ env imageURL opts k hk hl,
        getLatestImage_miss H c₂ env imageURL opts k hk hl2]
      rcases hf : env.LatestTagFromImage opts imageURL with ⟨v, _ | e⟩
      · simp only [AList.lookup_insert, and_self]
      · simp only [hl, hl2, and_self]
    · have hl2 : c₂.imageCache.lookup k = some item := by rw [← hagree, hl]
      rcases ho : tooOld c₁.cacheTimeout item env.now
      · have ho2 : tooOld c₂.cacheTimeout item env.now = false := by rw [← httl]; exact ho
        rw [getLatestImage_hit H c₁ env imageURL opts k item hk hl ho,
          getLatestImage_hit H c₂ env imageURL opts k item hk hl2 ho2]
        simp only [hl, hl2, and_self]
      · have ho2 : tooOld c₂.cacheTimeout item env.now = true := by rw [← httl]; exact ho
        rw [getLatestImage_stale H c₁ env imageURL opts k item hk hl ho,
          getLatestImage_stale H c₂ env imageURL opts k item hk hl2 ho2]
        rcases hf : env.LatestTagFromImage opts imageURL with ⟨v, _ | e⟩
        · simp only [AList.lookup_insert, and_self]
        · simp only [hl, hl2, and_self]
  · rw [hk] at hagree
    simp only at hagree
    rw [getLatestImage_keyError H c₁ env imageURL opts k ke hk,
      getLatestImage_keyError H c₂ env imageURL opts k ke hk]
    simp only [hagree, and_self]

/-- C17 at a concrete input: the example controller with and without the key `redis`
answers a call for `nginx` at 1.5s in the same way. -/
theorem C17_key_isolation_witness :
    exCtrl.cacheTimeout = exCtrlMore.cacheTimeout
      ∧ exCtrl.imageCache.lookup (exHash "nginx" ()).1
          = exCtrlMore.imageCache.lookup (exHash "nginx" ()).1
      ∧ exCtrl.imageCache.lookup "redis" ≠ exCtrlMore.imageCache.lookup "redis"
      ∧ (getLatestImage exHash exCtrl (exEnvOk 1500000000 "2.0" 1500000000) "nginx" ()).ret
          = (getLatestImage exHash exCtrlMore
              (exEnvOk 1500000000 "2.0" 1500000000) "nginx" ()).ret
      ∧ (getLatestImage exHash exCtrl (exEnvOk 1500000000 "2.0" 1500000000) "nginx" ()).trace
          = (getLatestImage exHash exCtrlMore
              (exEnvOk 1500000000 "2.0" 1500000000) "nginx" ()).trace :=
  have h := C17_key_isolation exHash exCtrl exCtrlMore (exEnvOk 1500000000 "2.0" 1500000000)
    "nginx" () rfl (by decide)
  ⟨rfl, by decide, by decide, h.1, h.2.1⟩

/-- C13 (no re-check after escalation, the last writer to complete wins): let two calls of
`getLatestImage` for the same key `k` both have read the map of a controller in which `k` is
absent or too old, and neither have taken the exclusive lock yet (such a configuration is
reached from the start, with the two shared sections one after the other or overlapping).
Then in every run to the end from there, however the two calls interleave and whatever the
registry answers, both invoke the registry lookup, one after the other: the history is the
lookup of one call, with its commit if the lookup succeeded, followed by the lookup of the
other, with its commit if it succeeded.  Each call returns what the registry answered it,
the lock ends free, and the controller is the one at the start after the commits in that
order; so when both lookups succeed the entry of `k` at the end is the one committed last,
with the value and the commit time of the call that committed last. -/
theorem C13_last_writer_wins (H : String → Opts → Key × GoError Err)
    (c : Controller Key ImageTag) (k : Key)
    (envA : CallEnv Opts ImageTag Err) (urlA : String) (optsA : Opts)
    (envB : CallEnv Opts ImageTag Err) (urlB : String) (optsB : Opts)
    (sched : List Nat) (cfgF : Config Key ImageTag Err Opts)
    (hkeyA : H urlA optsA = (k, none))
    (hkeyB : H urlB optsB = (k, none))
    (hstaleA : c.imageCache.lookup k = none
      ∨ ∃ item, c.imageCache.lookup k = some item
          ∧ item.timestamp + c.cacheTimeout < envA.now)
    (hstaleB : c.imageCache.lookup k = none
      ∨ ∃ item, c.imageCache.lookup k = some item
          ∧ item.timestamp + c.cacheTimeout < envB.now)
    (hrun : run H (herd c k envA urlA optsA envB urlB optsB) sched = some cfgF)
    (hdone : allDone cfgF = true) :
    (run H (initial c [Job.call envA urlA optsA, Job.call envB urlB optsB])
          [0, 0, 0, 0, 1, 1, 1, 1]
        = some (herd c k envA urlA optsA envB urlB optsB)
      ∧ run H (initial c [Job.call envA urlA optsA, Job.call envB urlB optsB])
          [0, 1, 0, 1, 0, 1, 0, 1]
        = some (herd c k envA urlA optsA envB urlB optsB))
      ∧ (fetchers cfgF.history = [0, 1] ∨ fetchers cfgF.history = [1, 0])
      ∧ (cfgF.history
            = callHistory 0 k envA.commitNow (envA.LatestTagFromImage optsA urlA)
              ++ callHistory 1 k envB.commitNow (envB.LatestTagFromImage optsB urlB)
          ∨ cfgF.history
            = callHistory 1 k envB.commitNow (envB.LatestTagFromImage optsB urlB)
              ++ callHistory 0 k envA.commitNow (envA.LatestTagFromImage optsA urlA))
      ∧ cfgF.threads.map Thread.result
          = [some (fetchReturn (envA.LatestTagFromImage optsA urlA)),
             some (fetchReturn (envB.LatestTagFromImage optsB urlB))]
      ∧ cfgF.mu = RWMutex.free
      ∧ cfgF.ctrl = replay c cfgF.history
      ∧ (∀ vA vB, envA.LatestTagFromImage optsA urlA = (vA, none) →
          envB.LatestTagFromImage optsB urlB = (vB, none) →
          cfgF.threads.map Thread.result = [some (vA, none), some (vB, none)]
            ∧ ((cfgF.history
                  = [Mutation.fetch 0, Mutation.commit 0 k ⟨envA.commitNow, vA⟩,
                     Mutation.fetch 1, Mutation.commit 1 k ⟨envB.commitNow, vB⟩]
                ∧ cfgF.ctrl.imageCache.lookup k = some ⟨envB.commitNow, vB⟩)
              ∨ (cfgF.history
                  = [Mutation.fetch 1, Mutation.commit 1 k ⟨envB.commitNow, vB⟩,
                     Mutation.fetch 0, Mutation.commit 0 k ⟨envA.commitNow, vA⟩]
                ∧ cfgF.ctrl.imageCache.lookup k = some ⟨envA.commitNow, vA⟩))) := by
  have hsA : c.imageCache.lookup k = none
      ∨ ∃ item, c.imageCache.lookup k = some item
          ∧ tooOld c.cacheTimeout item envA.now = true := by
    rcases hstaleA with h | ⟨item, h1, h2⟩
    · exact Or.inl h
    · exact Or.inr ⟨item, h1, tooOld_eq_true.2 h2⟩
  have hsB : c.imageCache.lookup k = none
      ∨ ∃ item, c.imageCache.lookup k = some item
          ∧ tooOld c.cacheTimeout item envB.now = true := by
    rcases hstaleB with h | ⟨item, h1, h2⟩
    · exact Or.inl h
    · exact Or.inr ⟨item, h1, tooOld_eq_true.2 h2⟩
  have hinv := herd_run H c k envA urlA optsA envB urlB optsB hsA hsB sched _ cfgF
    (herd_inv_start c k envA urlA optsA envB urlB optsB) hrun
  obtain ⟨a, b, ha, hb, _, _, hth, hmu, hctrl, hord⟩ := hinv
  have hab : a = 6 ∧ b = 6 := by
    unfold allDone at hdone
    rw [hth] at hdone
    simp only [List.all_cons, List.all_nil, Bool.and_true, Bool.and_eq_true] at hdone
    obtain ⟨h1, h2⟩ := hdone
    exact ⟨herdPc_finished envA urlA optsA k _ _ a ha h1,
      herdPc_finished envB urlB optsB k _ _ b hb h2⟩
  obtain ⟨rfl, rfl⟩ := hab
  have hhist : cfgF.history
        = callHistory 0 k envA.commitNow (envA.LatestTagFromImage optsA urlA)
          ++ callHistory 1 k envB.commitNow (envB.LatestTagFromImage optsB urlB)
      ∨ cfgF.history
        = callHistory 1 k envB.commitNow (envB.LatestTagFromImage optsB urlB)
          ++ callHistory 0 k envA.commitNow (envA.LatestTagFromImage optsA urlA) := by
    rcases hord with ⟨hh, _⟩ | ⟨hh, _⟩
    · exact Or.inl hh
    · exact Or.inr hh
  have hres : cfgF.threads.map Thread.result
      = [some (fetchReturn (envA.LatestTagFromImage optsA urlA)),
         some (fetchReturn (envB.LatestTagFromImage optsB urlB))] := by
    rw [hth]; rfl
  refine ⟨⟨?_, ?_⟩, ?_, hhist, hres, ?_, hctrl, ?_⟩
  · simp [run, step, initial, spawn, threadStep, hkeyA, hkeyB, RWMutex.RLock, RWMutex.RUnlock,
      RWMutex.free, herd]
  · simp [run, step, initial, spawn, threadStep, hkeyA, hkeyB, RWMutex.RLock, RWMutex.RUnlock,
      RWMutex.free, herd]
  · rcases hA : envA.LatestTagFromImage optsA urlA with ⟨vA, _ | eA⟩ <;>
      rcases hB : envB.LatestTagFromImage optsB urlB with ⟨vB, _ | eB⟩ <;>
      rw [hA, hB] at hhist <;>
      rcases hhist with hh | hh <;> rw [hh] <;> simp [callHistory, fetchers]
  · rw [hmu]; rfl
  · intro vA vB hA hB
    rw [hA, hB] at hhist hres
    refine ⟨hres, ?_⟩
    rcases hhist with hh | hh
    · left
      refine ⟨hh, ?_⟩
      rw [hctrl, hh]
      simp [callHistory, replay, applyMutation]
    · right
      refine ⟨hh, ?_⟩
      rw [hctrl, hh]
      simp [callHistory, replay, applyMutation]

/-- C13 at concrete inputs.  The two calls for `nginx` test the same stale entry, the first
call first.  When the second call commits last the cache ends with `B`; when the first call
commits last, although it tested first, the cache ends with `A`; and when the lookup of the
first call fails, both calls have still invoked the lookup, one after the other, and the
cache ends with `B`. -/
theorem C13_last_writer_wins_witness :
    (run exHash exHerd exFirstThenSecond = some exHerdAB
      ∧ allDone exHerdAB = true
      ∧ fetchers exHerdAB.history = [0, 1]
      ∧ exHerdAB.ctrl.imageCache.lookup "nginx" = some ⟨1500000020, some "B"⟩
      ∧ exHerdAB.threads.map Thread.result = [some (some "A", none), some (some "B", none)])
    ∧ (run exHash exHerdLate exSecondThenFirst = some exHerdBA
      ∧ allDone exHerdBA = true
      ∧ fetchers exHerdBA.history = [1, 0]
      ∧ exHerdBA.ctrl.imageCache.lookup "nginx" = some ⟨1500000030, some "A"⟩
      ∧ exHerdBA.threads.map Thread.result = [some (some "A", none), some (some "B", none)])
    ∧ (run exHash exHerdFail [0, 1, 0, 0, 0, 0, 1, 1, 1, 1, 1] = some exHerdFailEnd
      ∧ allDone exHerdFailEnd = true
      ∧ fetchers exHerdFailEnd.history = [0, 1]
      ∧ exHerdFailEnd.history
          = [Mutation.fetch 0, Mutation.fetch 1,
             Mutation.commit 1 "nginx" ⟨1500000020, some "B"⟩]
      ∧ exHerdFailEnd.threads.map Thread.result
          = [some (none, some "registry unreachable"), some (some "B", none)]) :=
  have hs : ∀ t : Time, 1500000000 ≤ t → (exCtrl.imageCache.lookup "nginx" = none
      ∨ ∃ item, exCtrl.imageCache.lookup "nginx" = some item
          ∧ item.timestamp + exCtrl.cacheTimeout < t) :=
    fun t ht => Or.inr ⟨⟨0, some "1.0"⟩, by decide,
      lt_of_lt_of_le (by decide : (0 : Time) + exCtrl.cacheTimeout < 1500000000) ht⟩
  have h1 := C13_last_writer_wins exHash exCtrl "nginx" (exEnvOk 1500000000 "A" 1500000010)
    "nginx" () (exEnvOk 1500000001 "B" 1500000020) "nginx" () exFirstThenSecond exHerdAB
    (by decide) (by decide) (hs _ (by decide)) (hs _ (by decide)) rfl rfl
  have h2 := C13_last_writer_wins exHash exCtrl "nginx" (exEnvOk 1500000000 "A" 1500000030)
    "nginx" () (exEnvOk 1500000001 "B" 1500000020) "nginx" () exSecondThenFirst exHerdBA
    (by decide) (by decide) (hs _ (by decide)) (hs _ (by decide)) rfl rfl
  have h3 := C13_last_writer_wins exHash exCtrl "nginx" (exEnvFail 1500000000)
    "nginx" () (exEnvOk 1500000001 "B" 1500000020) "nginx" ()
    [0, 1, 0, 0, 0, 0, 1, 1, 1, 1, 1] exHerdFailEnd
    (by decide) (by decide) (hs _ (by decide)) (hs _ (by decide)) rfl rfl
  ⟨⟨rfl, rfl, by decide, by decide, (h1.2.2.2.2.2.2 (some "A") (some "B") rfl rfl).1⟩,
    ⟨rfl, rfl, by decide, by decide, (h2.2.2.2.2.2.2 (some "A") (some "B") rfl rfl).1⟩,
    ⟨rfl, rfl, by decide, by decide, h3.2.2.2.1⟩⟩

end Claims

end VersionChecker
